import Mathlib

/-!
Verification of the FixGoblin self-healing code-repair engine.

This file gives a shallow embedding, in Lean 4, of the core of the
FixGoblin repository (Backend/core): the patch evaluator/selector
(`patch_optimizer.py`), the error signal extractor (`error_parser.py`),
the sandboxed execution runner (`sandbox_runner.py`), the unreachable-code
analyses of `logical_analyzer.py`, and the bounded repair-loop controller
(`autonomous_repair.py`).  Pure Python functions become Lean functions;
the file-system, subprocess and generator boundaries become explicit
oracle parameters; Python's arbitrary-precision `int` becomes `Int`.
Theorems at the end settle the frozen claims about the engine.
-/

namespace FixGoblin

/-! ## Python string semantics helpers

Small executable models of the Python string operations the engine uses:
`str.strip`, `str.split('\n')`, substring membership (`in`), `startswith`,
`rstrip`, and the specific `re` patterns of the source.  Strings are
processed through their character lists.
-/

/-- Python whitespace for `str.strip` / `str.rstrip`:
space, tab, newline, carriage return, form feed, vertical tab. -/
def pyWhitespaceChar (c : Char) : Bool :=
  c == ' ' || c == '\t' || c == '\n' || c == '\r' ||
  c == Char.ofNat 12 || c == Char.ofNat 11

/-- Python `s.strip()` (no argument): drop leading and trailing whitespace. -/
def pyStrip (s : String) : String :=
  String.mk (((s.data.dropWhile pyWhitespaceChar).reverse.dropWhile pyWhitespaceChar).reverse)

/-- Python `s.rstrip()`: drop trailing whitespace. -/
def pyRstrip (s : String) : String :=
  String.mk ((s.data.reverse.dropWhile pyWhitespaceChar).reverse)

/-- Python `s.lstrip()`-style drop of leading whitespace (used for `\s*` in
anchored regular expressions). -/
def dropLeadingWs (cs : List Char) : List Char :=
  cs.dropWhile pyWhitespaceChar

/-- Python `s.split(sep)` over a character list: splits at every
occurrence of `sep`, keeping empty pieces (`[] ↦ [[]]`). -/
def pySplitChars (sep : Char) : List Char → List (List Char)
  | [] => [[]]
  | c :: cs =>
    if c == sep then [] :: pySplitChars sep cs
    else
      match pySplitChars sep cs with
      | [] => [[c]]
      | h :: t => (c :: h) :: t

/-- Python `s.split(sep)` for a one-character separator: splits on every
occurrence, `"".split(sep) = [""]`. -/
def pySplitOn (sep : Char) (s : String) : List String :=
  (pySplitChars sep s.data).map String.mk

/-- Python `pat in s`: substring membership. -/
def strContains (s pat : String) : Bool :=
  decide (pat.data <:+: s.data)

/-- Python `s.startswith(pat)`. -/
def strStarts (s pat : String) : Bool :=
  pat.data.isPrefixOf s.data

/-- Python `s.endswith(pat)`. -/
def strEnds (s pat : String) : Bool :=
  pat.data.isSuffixOf s.data

/-- Python `s.splitlines(keepends=True)`, for `'\n'`-terminated lines (the
only line boundary the engine's inputs use): each piece keeps its newline. -/
def pySplitLinesKeep (s : String) : List String :=
  let rec go (acc : List Char) : List Char → List (List Char)
    | [] => if acc.isEmpty then [] else [acc.reverse]
    | c :: cs =>
      if c == '\n' then (acc.reverse ++ ['\n']) :: go [] cs
      else go (c :: acc) cs
  (go [] s.data).map String.mk

/-- Python `s.split(':', 1)`: split at the first colon only; `none` when the
string holds no colon. -/
def splitOnceColon (s : String) : Option (String × String) :=
  let rec go (acc : List Char) : List Char → Option (List Char × List Char)
    | [] => none
    | c :: cs => if c == ':' then some (acc.reverse, cs) else go (c :: acc) cs
  (go [] s.data).map (fun p => (String.mk p.1, String.mk p.2))

/-! ### The source's `re` patterns

`\w` of the source's patterns, over the ASCII inputs the engine sees:
letters, digits and underscore.  The matchers below implement Python's
leftmost search with greedy backtracking for the exact patterns of
`patch_optimizer.py` and `error_parser.py`.
-/

/-- `\w` (word character). -/
def isWordChar (c : Char) : Bool :=
  c.isAlphanum || c == '_'

/-- Length of the maximal `\w+` run at the head of the list. -/
def wordRunLen : List Char → Nat
  | [] => 0
  | c :: cs => if isWordChar c then wordRunLen cs + 1 else 0

/-- The alternation `(?:Error|Exception|Warning)` followed by `':'`, tried in
the pattern's order at the head of the list; returns the alternative's text. -/
def errKindAlt (cs : List Char) : Option (List Char) :=
  if "Error:".data.isPrefixOf cs then some "Error".data
  else if "Exception:".data.isPrefixOf cs then some "Exception".data
  else if "Warning:".data.isPrefixOf cs then some "Warning".data
  else none

/-- Backtracking for `\w+(?:Error|Exception|Warning):` anchored at the head:
`\w+` consumes `j` characters, greedily from the maximal run downwards. -/
def tryWordThenAlt (cs : List Char) : Nat → Option (List Char)
  | 0 => none
  | j + 1 =>
    match errKindAlt (cs.drop (j + 1)) with
    | some alt => some (cs.take (j + 1) ++ alt)
    | none => tryWordThenAlt cs j

/-- `re` match of `(\w+(?:Error|Exception|Warning)):` anchored at the head of
the list: the captured group 1. -/
def matchErrKindAt (cs : List Char) : Option (List Char) :=
  tryWordThenAlt cs (wordRunLen cs)

/-- `re.search(r'(\w+(?:Error|Exception|Warning)):', line)`: leftmost
position wins, then greedy backtracking; returns group 1. -/
def searchErrKind : List Char → Option (List Char)
  | [] => none
  | c :: cs =>
    match matchErrKindAt (c :: cs) with
    | some g => some g
    | none => searchErrKind cs

/-- `re.match(r'^(\w+(?:Error|Exception|Warning)):\s*(.*)$', line)`: the
anchored variant, returning group 1 and group 2 (the text after the colon
with its leading whitespace consumed by the greedy `\s*`). -/
def matchErrKindLine (line : String) : Option (String × String) :=
  match matchErrKindAt line.data with
  | some g => some (String.mk g, String.mk (dropLeadingWs (line.data.drop (g.length + 1))))
  | none => none

/-! ## `Backend/core/patch_optimizer.py`

The patch evaluator/selector.  `run_in_sandbox` is the execution substrate:
`_run_code_in_sandbox` writes a code string to a fresh temporary file and
runs that file, so here it is the oracle `String → SandboxResult` applied to
the code string itself.  Scores are Python `int`s, hence `Int`.
-/

/-- The uniform sandbox result contract (`sandbox_runner.run_in_sandbox`'s
return dictionary): exactly the keys `language`, `stdout`, `stderr`,
`returncode`, `executed_command`. -/
structure SandboxResult where
  language : String
  stdout : String
  stderr : String
  returncode : Int
  executed_command : List String
deriving DecidableEq, Repr

/-- A patch candidate as the generators produce it (the fields
`patch_optimizer.py` reads). -/
structure Patch where
  id : String
  description : String
  patched_code : String
  diff : String
deriving DecidableEq, Repr

/-- `_evaluate_patch`'s score-breakdown dictionary. -/
structure ScoreInfo where
  returncode : Int
  success : Bool
  no_errors_bonus : Int
  priority_bonus : Int
  error_reduction_bonus : Int
  new_errors_penalty : Int
  diff_size_penalty : Int
  output_bonus : Int
  total_score : Int
deriving DecidableEq, Repr

/-- `_count_error_lines`: the number of stderr lines containing one of
`Error`, `Exception`, `Traceback`, `Warning`. -/
def count_error_lines (stderr : String) : Nat :=
  if stderr == "" then 0
  else
    ((pySplitOn '\n' stderr).filter (fun line =>
      strContains line "Error" || strContains line "Exception" ||
      strContains line "Traceback" || strContains line "Warning")).length

/-- `_extract_error_type`: scan the stderr lines from the last upwards for
`(\w+(?:Error|Exception|Warning)):` and return the first match's group 1. -/
def extract_error_type (stderr : String) : Option String :=
  if stderr == "" then none
  else
    let rec firstHit : List String → Option String
      | [] => none
      | line :: rest =>
        match searchErrKind line.data with
        | some g => some (String.mk g)
        | none => firstHit rest
    firstHit (pySplitOn '\n' stderr).reverse

/-- `_count_diff_lines`: changed lines of a unified diff (`+`/`-` lines that
are not the `+++`/`---` headers). -/
def count_diff_lines (diff : String) : Nat :=
  if diff == "" then 0
  else
    ((pySplitOn '\n' diff).filter (fun line =>
      (strStarts line "+" && !strStarts line "+++") ||
      (strStarts line "-" && !strStarts line "---"))).length

/-- `_evaluate_patch`: run the candidate's `patched_code` in the sandbox and
build the additive score breakdown.  (`original_code` is a parameter of the
source function it never reads.) -/
def evaluate_patch (patch : Patch) (original_code : String)
    (baseline_result : SandboxResult) (run_in_sandbox : String → SandboxResult) :
    ScoreInfo :=
  let patched_result := run_in_sandbox patch.patched_code
  -- 1. No errors after patch
  let no_errors_bonus : Int := if patched_result.returncode = 0 then 100 else 0
  -- 2. Patch id priority bonus
  let priority_bonus : Int := if patch.id = "patch_0" then 30 else 0
  -- 3. Error reduction / increase against the baseline
  let baseline_errors := count_error_lines baseline_result.stderr
  let patched_errors := count_error_lines patched_result.stderr
  let error_reduction_bonus : Int :=
    if patched_errors < baseline_errors then
      ((baseline_errors - patched_errors : Nat) : Int) * 20
    else 0
  let penalty_after_counts : Int :=
    if baseline_errors < patched_errors then
      -(((patched_errors - baseline_errors : Nat) : Int) * 50)
    else 0
  -- 4. New error types (penalty added on top of the count penalty)
  let baseline_error_type := extract_error_type baseline_result.stderr
  let patched_error_type := extract_error_type patched_result.stderr
  let new_errors_penalty : Int :=
    match patched_error_type, baseline_error_type with
    | some pt, some bt =>
      if pt ≠ bt then
        if pt = "UnboundLocalError" ∨ pt = "SyntaxError" then penalty_after_counts - 100
        else penalty_after_counts - 50
      else penalty_after_counts
    | _, _ => penalty_after_counts
  -- 5. Diff size penalty / minimal-change bonus
  let lines_changed := count_diff_lines patch.diff
  let diff_size_penalty : Int :=
    if 3 < lines_changed then -(((lines_changed - 3 : Nat) : Int) * 10)
    else if lines_changed ≤ 2 then 10
    else 0
  -- 6. Bonus for stdout output where the baseline had none
  let output_bonus : Int :=
    if patched_result.stdout ≠ "" ∧ baseline_result.stdout = "" then 15 else 0
  { returncode := patched_result.returncode
    success := patched_result.returncode == 0
    no_errors_bonus := no_errors_bonus
    priority_bonus := priority_bonus
    error_reduction_bonus := error_reduction_bonus
    new_errors_penalty := new_errors_penalty
    diff_size_penalty := diff_size_penalty
    output_bonus := output_bonus
    total_score := no_errors_bonus + priority_bonus + error_reduction_bonus +
      new_errors_penalty + diff_size_penalty + output_bonus }

/-- A candidate together with its score and breakdown (the enriched
dictionary `select_best_patch` builds per candidate). -/
structure ScoredPatch where
  patch : Patch
  score : Int
  score_breakdown : ScoreInfo
deriving DecidableEq, Repr

/-- One candidate's scored entry (the dictionary `select_best_patch` builds
from `_evaluate_patch`'s breakdown). -/
def score_one (original_code : String) (baseline_result : SandboxResult)
    (run_in_sandbox : String → SandboxResult) (p : Patch) : ScoredPatch :=
  let si := evaluate_patch p original_code baseline_result run_in_sandbox
  { patch := p, score := si.total_score, score_breakdown := si }

/-- The per-candidate scoring pass of `select_best_patch`. -/
def score_all (patch_candidates : List Patch) (original_code : String)
    (baseline_result : SandboxResult) (run_in_sandbox : String → SandboxResult) :
    List ScoredPatch :=
  patch_candidates.map (score_one original_code baseline_result run_in_sandbox)

/-- The descending, declaration-order-stable comparison of
`scored_patches.sort(key=lambda x: x["score"], reverse=True)`. -/
def rankRel (a b : ScoredPatch) : Prop := b.score ≤ a.score

instance : DecidableRel rankRel := fun a b => Int.decLe b.score a.score

instance : IsTotal ScoredPatch rankRel := ⟨fun a b => Int.le_total b.score a.score⟩

instance : IsTrans ScoredPatch rankRel :=
  ⟨fun _ _ _ h h' => le_trans h' h⟩

/-- `select_best_patch`: score every candidate against one baseline run of
the original code, sort descending by score (Python's sort is stable, so
declaration order breaks ties), and return the top entry together with the
full ranking (the `all_scored_patches` key).  `None` for an empty candidate
list. -/
def select_best_patch (patch_candidates : List Patch) (original_code : String)
    (run_in_sandbox : String → SandboxResult) :
    Option (ScoredPatch × List ScoredPatch) :=
  match patch_candidates with
  | [] => none
  | _ :: _ =>
    let baseline_result := run_in_sandbox original_code
    let scored_patches :=
      score_all patch_candidates original_code baseline_result run_in_sandbox
    let ranked := List.insertionSort rankRel scored_patches
    match ranked with
    | [] => none  -- unreachable: sorting preserves the list's length
    | best :: _ => some (best, ranked)

/-! ## `Backend/core/error_parser.py`

The error signal extractor: sandbox result + source text → `ErrorRecord`.
-/

/-- `parse_error`'s result dictionary (`error_type = none` ⇔ no diagnosable
error). -/
structure ErrorInfo where
  error_type : Option String
  line_number : Option Nat
  error_message : Option String
  faulty_snippet : Option String
deriving DecidableEq, Repr

/-- `_load_code_lines`: the engine's callers pass the source text itself (not
a path), so `open` raises and the function falls back to
`user_code.splitlines(keepends=True)`. -/
def load_code_lines (user_code : String) : List String :=
  pySplitLinesKeep user_code

/-- The extractor's pre-execution gate: the stderr mentions one of the three
syntax-category keywords (`any(err in stderr for err in [...])`). -/
def mentions_syntax_kw (stderr : String) : Bool :=
  strContains stderr "SyntaxError" || strContains stderr "IndentationError" ||
  strContains stderr "TabError"

/-- The colon forms the syntax-shape regular expression requires. -/
def has_syntax_kw_colon (stderr : String) : Bool :=
  strContains stderr "SyntaxError:" || strContains stderr "IndentationError:" ||
  strContains stderr "TabError:"

/-- The alternation `(SyntaxError|IndentationError|TabError)` followed by
`':'`, at the head of the list. -/
def syntaxKwAt (cs : List Char) : Option String :=
  if "SyntaxError:".data.isPrefixOf cs then some "SyntaxError"
  else if "IndentationError:".data.isPrefixOf cs then some "IndentationError"
  else if "TabError:".data.isPrefixOf cs then some "TabError"
  else none

/-- `re.search(r'(SyntaxError|IndentationError|TabError):', stderr)`:
leftmost occurrence, group 1. -/
def searchSyntaxKw : List Char → Option String
  | [] => none
  | c :: cs =>
    match syntaxKwAt (c :: cs) with
    | some k => some k
    | none => searchSyntaxKw cs

/-- Decimal digits to a number (`int(...)` on a `\d+` capture). -/
def digitsToNat (ds : List Char) : Nat :=
  ds.foldl (fun n c => n * 10 + (c.toNat - 48)) 0

/-- `re` match of `File\s+"([^"]+)",\s+line\s+(\d+)` anchored at the head of
the list: the filename capture and the line-number capture. -/
def matchFileLineAt (cs : List Char) : Option (List Char × Nat) :=
  if "File".data.isPrefixOf cs then
    let r1 := cs.drop 4
    let r2 := r1.dropWhile pyWhitespaceChar
    if r1.length == r2.length then none
    else
      match r2 with
      | '"' :: r3 =>
        let name := r3.takeWhile (fun c => c != '"')
        if name.isEmpty then none
        else
          match r3.drop name.length with
          | '"' :: ',' :: r4 =>
            let r5 := r4.dropWhile pyWhitespaceChar
            if r4.length == r5.length then none
            else if "line".data.isPrefixOf r5 then
              let r6 := r5.drop 4
              let r7 := r6.dropWhile pyWhitespaceChar
              if r6.length == r7.length then none
              else
                let digits := r7.takeWhile Char.isDigit
                if digits.isEmpty then none else some (name, digitsToNat digits)
            else none
          | _ => none
      | _ => none
  else none

/-- `re.search` for the `File "...", line N` pattern: leftmost match. -/
def searchFileLine : List Char → Option (List Char × Nat)
  | [] => none
  | c :: cs =>
    match matchFileLineAt (c :: cs) with
    | some r => some r
    | none => searchFileLine cs

/-- `lines.index(line)`: the index of the first occurrence. -/
def firstIndexOf (lines : List String) (x : String) : Nat :=
  lines.findIdx (fun y => y == x)

/-- `_parse_syntax_error`: the pre-execution diagnostic shape.  `none` when
the stderr mentions none of the three syntax-category keywords (the caller
then falls through to the runtime parser). -/
def parse_syntax_error (stderr : String) (code_lines : List String) :
    Option ErrorInfo :=
  if !(mentions_syntax_kw stderr) then none
  else
    let error_type := searchSyntaxKw stderr.data
    let line_number := (searchFileLine stderr.data).map (fun r => r.2)
    let lines := pySplitOn '\n' (pyStrip stderr)
    let error_message : Option String :=
      match error_type with
      | none => none
      | some et =>
        match lines.reverse.find? (fun line => strContains line et) with
        | none => none
        | some line =>
          match splitOnceColon line with
          | some (_, rest) => some (pyStrip rest)
          | none => some (pyStrip line)
    let faulty_snippet : Option String :=
      match line_number with
      | some n =>
        if n ≠ 0 ∧ code_lines ≠ [] then
          if h : n - 1 < code_lines.length then some (pyRstrip (code_lines.get ⟨n - 1, h⟩))
          else none
        else none
      | none => none
    some { error_type := error_type, line_number := line_number,
           error_message := error_message, faulty_snippet := faulty_snippet }

/-- The reversed scan of `_parse_runtime_error` for the innermost
`File "...", line N` entry whose filename either contains `main.` or ends in
one of `.py .c .cpp .java .js`: the matched stderr line, the filename and the
captured number. -/
def findFileFrame (lines : List String) : Option (String × String × Nat) :=
  lines.reverse.findSome? (fun l =>
    match searchFileLine l.data with
    | some (nameChars, n) =>
      let filename := String.mk nameChars
      if strContains filename "main." || strEnds filename ".py" ||
         strEnds filename ".c" || strEnds filename ".cpp" ||
         strEnds filename ".java" || strEnds filename ".js" then
        some (l, filename, n)
      else none
    | none => none)

/-- `_parse_runtime_error`: the post-execution stack-unwind shape.  The kind
and message come from the last stderr line; the line number from the frame
scan; the snippet from the traceback's next line, else recovered from the
provided source lines. -/
def parse_runtime_error (stderr : String) (code_lines : List String) : ErrorInfo :=
  let lines := pySplitOn '\n' (pyStrip stderr)
  let typeMsg : Option String × Option String :=
    match lines.getLast? with
    | none => (none, none)
    | some last_line =>
      match matchErrKindLine last_line with
      | some (t, m) => (some t, some (pyStrip m))
      | none =>
        if pyStrip last_line ≠ "" then (some (pyStrip last_line), some (pyStrip last_line))
        else (none, none)
  let frame := findFileFrame lines
  let line_number : Option Nat := frame.map (fun r => r.2.2)
  let traceback_snippet : Option String :=
    match frame with
    | none => none
    | some (l, _, _) =>
      let line_idx := firstIndexOf lines l
      if h : line_idx + 1 < lines.length then
        let snippet_line := pyStrip (lines.get ⟨line_idx + 1, h⟩)
        if snippet_line ≠ "" ∧ ¬ strStarts snippet_line "File" then some snippet_line
        else none
      else none
  let faulty_snippet : Option String :=
    match traceback_snippet with
    | some s => some s
    | none =>
      match line_number with
      | some n =>
        if n ≠ 0 ∧ code_lines ≠ [] then
          if h : n - 1 < code_lines.length then some (pyRstrip (code_lines.get ⟨n - 1, h⟩))
          else none
        else none
      | none => none
  { error_type := typeMsg.1, line_number := line_number,
    error_message := typeMsg.2, faulty_snippet := faulty_snippet }

/-- `parse_error`: no error for exit 0 or blank stderr; otherwise the
pre-execution (syntax) shape first, then the stack-unwind shape. -/
def parse_error (signals : SandboxResult) (user_code : String) : ErrorInfo :=
  if signals.returncode = 0 ∨ pyStrip signals.stderr = "" then
    { error_type := none, line_number := none,
      error_message := none, faulty_snippet := none }
  else
    let code_lines := load_code_lines user_code
    match parse_syntax_error signals.stderr code_lines with
    | some r => r
    | none => parse_runtime_error signals.stderr code_lines

/-! ## `Backend/core/sandbox_runner.py`

The sandboxed execution substrate.  The file system, the `compile()` syntax
check and the `subprocess.run` calls are oracle fields of `SandboxEnv`;
`subprocess.run` may raise `TimeoutExpired` or any other exception, the file
primitives may raise non-timeout exceptions, so the helpers run in
`Except PyExc`.  The per-run temporary directory is fresh and anonymous, so
it carries no modelled state.
-/

/-- An exception escaping a helper: `subprocess.TimeoutExpired`, or any
other `Exception` carrying its `str(e)`. -/
inductive PyExc where
  | timeoutExpired
  | exc (msg : String)
deriving DecidableEq, Repr

/-- A completed `subprocess.run` (with `capture_output=True, text=True`). -/
structure ProcResult where
  stdout : String
  stderr : String
  returncode : Int
deriving DecidableEq, Repr

/-- What `compile(source, file, 'exec')` raises as a `SyntaxError`. -/
structure SyntaxErrInfo where
  lineno : Nat
  text : Option String
  offset : Option Nat
  msg : String
deriving DecidableEq, Repr

/-- Outcome of the `compile()` pre-check: success, a `SyntaxError`, or any
other exception (which the helper's `except SyntaxError` does not catch). -/
inductive CompileOutcome where
  | ok
  | syntaxErr (e : SyntaxErrInfo)
  | raised (msg : String)
deriving DecidableEq, Repr

/-- The oracles `run_in_sandbox` talks to. -/
structure SandboxEnv where
  pathExists : String → Bool
  readFile : String → Except String String
  copyFile : String → String → Except String Unit
  pyCompile : String → CompileOutcome
  runProc : List String → Except PyExc ProcResult

/-- `pathlib.Path(p).suffix`: the final component's extension, `''` when the
name has no interior dot. -/
def pathSuffix (p : String) : String :=
  let name := ((p.data.splitOn '/').getLastD [])
  let i := (name.reverse.takeWhile (fun c => c != '.')).length
  -- `i` counts the characters after the last dot; pathlib returns the
  -- suffix only when the dot is neither leading nor trailing.
  if i = name.length ∨ i = 0 ∨ name.length - i - 1 = 0 then ""
  else String.mk (name.drop (name.length - i - 1))

/-- `pathlib.Path(p).stem`: the final component without its suffix. -/
def pathStem (p : String) : String :=
  let name := ((p.data.splitOn '/').getLastD [])
  String.mk (name.take (name.length - (pathSuffix p).length))

/-- ASCII lowering (`str.lower()` over the extension strings in play). -/
def lowerStr (s : String) : String :=
  String.mk (s.data.map Char.toLower)

/-- `detect_language_from_extension`. -/
def detect_language_from_extension (file_path : String) : String :=
  let ext := lowerStr (pathSuffix file_path)
  if ext == ".py" then "python"
  else if ext == ".c" then "c"
  else if ext == ".cpp" then "cpp"
  else if ext == ".cc" then "cpp"
  else if ext == ".cxx" then "cpp"
  else if ext == ".java" then "java"
  else if ext == ".js" then "javascript"
  else if ext == ".html" then "html"
  else if ext == ".htm" then "html"
  else "unknown"

/-- `re` match of `public\s+class\s+(\w+)` anchored at the head. -/
def matchPublicClassAt (cs : List Char) : Option String :=
  if "public".data.isPrefixOf cs then
    let r1 := cs.drop 6
    let r2 := r1.dropWhile pyWhitespaceChar
    if r1.length == r2.length then none
    else if "class".data.isPrefixOf r2 then
      let r3 := r2.drop 5
      let r4 := r3.dropWhile pyWhitespaceChar
      if r3.length == r4.length then none
      else
        let w := r4.takeWhile isWordChar
        if w.isEmpty then none else some (String.mk w)
    else none
  else none

/-- `re.search(r'public\s+class\s+(\w+)', content)`. -/
def searchPublicClass : List Char → Option String
  | [] => none
  | c :: cs =>
    match matchPublicClassAt (c :: cs) with
    | some w => some w
    | none => searchPublicClass cs

/-- `extract_java_class_name`: the `public class` name, else the filename's
stem (also on a read failure). -/
def extract_java_class_name (env : SandboxEnv) (file_path : String) : String :=
  match env.readFile file_path with
  | .ok content =>
    match searchPublicClass content.data with
    | some cls => cls
    | none => pathStem file_path
  | .error _ => pathStem file_path

/-- The stderr `_execute_python` formats for a `SyntaxError` from the
`compile()` pre-check. -/
def formatSyntaxErrMsg (source_file : String) (e : SyntaxErrInfo) : String :=
  let base := "  File \"" ++ source_file ++ "\", line " ++ toString e.lineno ++ "\n"
  let withText :=
    match e.text with
    | some t =>
      if t ≠ "" then
        base ++ "    " ++ t ++
          (match e.offset with
           | some o => if o ≠ 0 then "    " ++ String.mk (List.replicate (o - 1) ' ') ++ "^\n" else ""
           | none => "")
      else base
    | none => base
  withText ++ "SyntaxError: " ++ e.msg

/-- `_execute_python`: syntax pre-check via `compile()`, then
`python3 main.py` in the sandbox directory. -/
def execute_python (env : SandboxEnv) (source_file : String) :
    Except PyExc SandboxResult :=
  match env.readFile source_file with
  | .error e =>
    .ok { language := "python", stdout := "", stderr := "Error reading file: " ++ e,
          returncode := 1, executed_command := [] }
  | .ok source_code =>
    match env.pyCompile source_code with
    | .raised m => .error (.exc m)
    | .syntaxErr e =>
      .ok { language := "python", stdout := "",
            stderr := formatSyntaxErrMsg source_file e,
            returncode := 1, executed_command := [] }
    | .ok =>
      match env.copyFile source_file "main.py" with
      | .error m => .error (.exc m)
      | .ok _ =>
        match env.runProc ["python3", "main.py"] with
        | .error pe => .error pe
        | .ok r =>
          .ok { language := "python", stdout := r.stdout, stderr := r.stderr,
                returncode := r.returncode, executed_command := ["python3", "main.py"] }

/-- The shared compile-then-run shape of `_execute_c` / `_execute_cpp` /
`_execute_java`: a failed compile short-circuits with the compiler's
diagnostics, a successful one runs the produced program. -/
def compileThenRun (env : SandboxEnv) (language : String)
    (compile_cmd runCmd : List String) : Except PyExc SandboxResult :=
  match env.runProc compile_cmd with
  | .error pe => .error pe
  | .ok cr =>
    if cr.returncode ≠ 0 then
      .ok { language := language, stdout := cr.stdout,
            stderr := "Compilation failed:\n" ++ cr.stderr,
            returncode := cr.returncode, executed_command := compile_cmd }
    else
      match env.runProc runCmd with
      | .error pe => .error pe
      | .ok rr =>
        .ok { language := language, stdout := rr.stdout, stderr := rr.stderr,
              returncode := rr.returncode, executed_command := runCmd }

/-- `_execute_c`. -/
def execute_c (env : SandboxEnv) (source_file : String) :
    Except PyExc SandboxResult :=
  match env.copyFile source_file "main.c" with
  | .error m => .error (.exc m)
  | .ok _ => compileThenRun env "c" ["gcc", "main.c", "-o", "program"] ["./program"]

/-- `_execute_cpp`. -/
def execute_cpp (env : SandboxEnv) (source_file : String) :
    Except PyExc SandboxResult :=
  match env.copyFile source_file "main.cpp" with
  | .error m => .error (.exc m)
  | .ok _ => compileThenRun env "cpp" ["g++", "main.cpp", "-o", "program"] ["./program"]

/-- `_execute_java`. -/
def execute_java (env : SandboxEnv) (source_file : String) :
    Except PyExc SandboxResult :=
  let class_name := extract_java_class_name env source_file
  match env.copyFile source_file (class_name ++ ".java") with
  | .error m => .error (.exc m)
  | .ok _ => compileThenRun env "java" ["javac", class_name ++ ".java"] ["java", class_name]

/-- `_execute_javascript`. -/
def execute_javascript (env : SandboxEnv) (source_file : String) :
    Except PyExc SandboxResult :=
  match env.copyFile source_file "main.js" with
  | .error m => .error (.exc m)
  | .ok _ =>
    match env.runProc ["node", "main.js"] with
    | .error pe => .error pe
    | .ok r =>
      .ok { language := "javascript", stdout := r.stdout, stderr := r.stderr,
            returncode := r.returncode, executed_command := ["node", "main.js"] }

/-- `_execute_html`: no execution, only a successful copy. -/
def execute_html (env : SandboxEnv) (source_file : String) :
    Except PyExc SandboxResult :=
  match env.copyFile source_file "index.html" with
  | .error m => .error (.exc m)
  | .ok _ =>
    .ok { language := "html", stdout := "HTML parsed successfully.", stderr := "",
          returncode := 0, executed_command := [] }

/-- The dispatch inside `run_in_sandbox`'s `try` block. -/
def dispatchLanguage (env : SandboxEnv) (language file_path : String) :
    Except PyExc SandboxResult :=
  if language == "python" then execute_python env file_path
  else if language == "c" then execute_c env file_path
  else if language == "cpp" then execute_cpp env file_path
  else if language == "java" then execute_java env file_path
  else if language == "javascript" then execute_javascript env file_path
  else execute_html env file_path

/-- `run_in_sandbox`: total over its public interface.  A missing file or an
unsupported extension yields `returncode 1` with an explanatory stderr and
an empty `executed_command`; a `TimeoutExpired` from the dispatch yields
`returncode 124`; any other exception yields `returncode 1`. -/
def run_in_sandbox (env : SandboxEnv) (file_path : String) (timeout : Nat) :
    SandboxResult :=
  if !env.pathExists file_path then
    { language := "unknown", stdout := "",
      stderr := "Error: File '" ++ file_path ++ "' not found",
      returncode := 1, executed_command := [] }
  else
    let language := detect_language_from_extension file_path
    if language == "unknown" then
      { language := "unknown", stdout := "",
        stderr := "Error: Unsupported file extension '" ++ pathSuffix file_path ++ "'",
        returncode := 1, executed_command := [] }
    else
      match dispatchLanguage env language file_path with
      | .ok r => r
      | .error .timeoutExpired =>
        { language := language, stdout := "",
          stderr := "Error: Execution exceeded " ++ toString timeout ++ " second timeout",
          returncode := 124, executed_command := [] }
      | .error (.exc m) =>
        { language := language, stdout := "", stderr := "Error: " ++ m,
          returncode := 1, executed_command := [] }

/-! ## `Backend/core/autonomous_repair.py`

The bounded repair-loop controller.  The collaborators the loop calls —
the sandbox on the target file, the test-case machinery, the logical and
semantic validators, the patch generator and the file-application step —
are oracle fields of `RepairEnv`; `parse_error` and `select_best_patch`
are the embeddings above.  The controller owns the current-source buffer:
it is threaded as the `cur` argument (reads and writes of the target file).
The result's `test_results` / `logical_analysis` payloads are stored data
with no control-flow effect and are not modelled.  The returned trace lists
every code string handed to the sandbox, in order (instrumentation used to
state what a run executes).
-/

/-- One entry of the controller's `iteration_logs` (the union of the key
sets the source writes, absent keys as `none`). -/
structure IterLog where
  iteration : Nat
  error_type : Option String := none
  line_number : Option Nat := none
  error_message : Option String := none
  selected_patch_id : Option String := none
  description : String := ""
  patch_score : Option Int := none
  status : String
  returncode : Option Int := none
  backup_path : Option String := none
deriving DecidableEq, Repr

/-- The controller's result dictionary. -/
structure RepairOutcome where
  success : Bool
  final_code : Option String
  initial_code : String
  iterations : List IterLog
  total_iterations : Nat
  final_status : String
  reason : String
deriving DecidableEq, Repr

/-- What `validate_logic` returns (the fields the controller branches on;
the issue list is consumed by `format_logical_error`, an oracle here). -/
structure LogicValidation where
  is_logically_correct : Bool
  issues : List String
deriving DecidableEq, Repr

/-- A `detect_semantic_errors` issue (the field the controller reads). -/
structure SemanticIssue where
  message : String
deriving DecidableEq, Repr

/-- A `suggest_fixes_for_semantic_errors` fix. -/
structure SemanticFix where
  id : String
  description : String
  patched_code : String
deriving DecidableEq, Repr

/-- The controller's collaborators.  `run_sandbox` maps the current content
of the target file (and, inside the optimizer, a candidate's code written to
a fresh temporary file) to its sandbox result.  `apply_ok` says whether
`apply_patch_to_file` succeeds at a given iteration (it fails only on a
file-system exception). -/
structure RepairEnv where
  file_exists : Bool
  read_initial : Except String String
  run_sandbox : String → SandboxResult
  parse_test_cases : String → Nat
  tests_failed : String → Bool
  validate_logic : SandboxResult → String → LogicValidation
  format_logical_error : LogicValidation → Option ErrorInfo
  detect_semantic : String → String → List SemanticIssue
  suggest_semantic_fixes : List SemanticIssue → String → List SemanticFix
  generate_patches : ErrorInfo → String → Bool → List Patch
  apply_ok : Nat → Bool

/-- `_create_failure_result`: `total_iterations` is the log list's length. -/
def create_failure_result (reason : String) (final_code : Option String)
    (iterations : List IterLog) (initial_code : String) : RepairOutcome :=
  { success := false, final_code := final_code, initial_code := initial_code,
    iterations := iterations, total_iterations := iterations.length,
    final_status := "failed", reason := reason }

/-- `_create_success_result`. -/
def create_success_result (final_code : String) (iterations : List IterLog)
    (total : Nat) (initial_code : String) : RepairOutcome :=
  { success := true, final_code := some final_code, initial_code := initial_code,
    iterations := iterations, total_iterations := total,
    final_status := "success",
    reason := "Code successfully repaired and executes without errors" }

/-- The codes `select_best_patch` hands to the sandbox, in order: the
baseline original, then every candidate. -/
def selectTrace (patch_candidates : List Patch) (original_code : String) :
    List String :=
  original_code :: patch_candidates.map (fun p => p.patched_code)

/-- The `while current_iteration < max_iterations` loop of
`autonomous_repair`, by recursion on the remaining budget.  State: current
file content `cur`, accumulated `logs`, iterations done `iters`, sandbox
trace. -/
def repair_loop (env : RepairEnv) (file_path : String) (max_iterations : Nat)
    (optimize_efficiency : Bool) (initial_code : String) :
    Nat → String → List IterLog → Nat → List String → RepairOutcome × List String
  | 0, cur, logs, iters, trace =>
    ({ success := false, final_code := some cur, initial_code := initial_code,
       iterations := logs, total_iterations := iters,
       final_status := "max_iterations_reached",
       reason := "Reached maximum iterations (" ++ toString max_iterations ++
         ") without fixing all errors" }, trace)
  | fuel + 1, cur, logs, iters, trace =>
    let it := iters + 1
    let sandbox_result := env.run_sandbox cur
    let trace1 := trace ++ [cur]
    if sandbox_result.returncode = 0 then
      -- Successful execution: test runs and the logical-analysis passes only
      -- store reporting data; then the semantic and logic validators decide.
      let logic_validation := env.validate_logic sandbox_result cur
      let semantic_issues := env.detect_semantic cur sandbox_result.stdout
      let semantic_step : Option (String × IterLog) :=
        match semantic_issues with
        | [] => none
        | issue :: _ =>
          match env.suggest_semantic_fixes semantic_issues cur with
          | [] => none
          | fix :: _ =>
            some (fix.patched_code,
              { iteration := it, error_type := some "SemanticError",
                error_message := some issue.message,
                selected_patch_id := some fix.id, description := fix.description,
                status := "APPLIED_SEMANTIC_FIX" })
      match semantic_step with
      | some (newCode, log) =>
        repair_loop env file_path max_iterations optimize_efficiency initial_code
          fuel newCode (logs ++ [log]) it trace1
      | none =>
        -- Logical validation: a generated, selected and applied logical patch
        -- retries; otherwise the iteration ends in the success result.
        let logical_step : Option (String × IterLog × List String) :=
          if logic_validation.is_logically_correct then none
          else
            match env.format_logical_error logic_validation with
            | none => none
            | some error_data =>
              match env.generate_patches error_data cur false with
              | [] => none
              | p :: ps =>
                let tr := trace1 ++ selectTrace (p :: ps) cur
                match select_best_patch (p :: ps) cur env.run_sandbox with
                | none => none  -- unreachable: a non-empty list always selects
                | some (best, _) =>
                  if env.apply_ok it then
                    some (best.patch.patched_code,
                      { iteration := it, error_type := some "LogicalError",
                        line_number := error_data.line_number,
                        error_message := error_data.error_message,
                        selected_patch_id := some best.patch.id,
                        description := best.patch.description,
                        patch_score := some best.score,
                        status := "retrying", returncode := some 0,
                        backup_path := some (file_path ++ ".backup") }, tr)
                  else none
        -- the selection's sandbox runs happen whether or not a patch applies
        let trace2 :=
          if logic_validation.is_logically_correct then trace1
          else
            match env.format_logical_error logic_validation with
            | none => trace1
            | some error_data =>
              match env.generate_patches error_data cur false with
              | [] => trace1
              | p :: ps => trace1 ++ selectTrace (p :: ps) cur
        match logical_step with
        | some (newCode, log, tr) =>
          repair_loop env file_path max_iterations optimize_efficiency initial_code
            fuel newCode (logs ++ [log]) it tr
        | none =>
          (create_success_result cur
            (logs ++ [{ iteration := it,
                        description := "Code executed successfully with valid logic",
                        status := "fixed", returncode := some 0 }])
            it initial_code, trace2)
    else
      -- Execution failed: diagnose, generate, select, apply.
      let error_data := parse_error sandbox_result cur
      match error_data.error_type with
      | none =>
        let log : IterLog :=
          { iteration := it, error_type := some "Unknown",
            error_message := some "Failed to parse error",
            description := "Error parsing failed", status := "failed",
            returncode := some sandbox_result.returncode }
        (create_failure_result "Could not parse error" (some cur) (logs ++ [log])
          initial_code, trace1)
      | some _ =>
        match env.generate_patches error_data cur optimize_efficiency with
        | [] =>
          let log : IterLog :=
            { iteration := it, error_type := error_data.error_type,
              line_number := error_data.line_number,
              error_message := error_data.error_message,
              description := "No patches generated", status := "failed",
              returncode := some sandbox_result.returncode }
          (create_failure_result "No patches could be generated" (some cur)
            (logs ++ [log]) initial_code, trace1)
        | p :: ps =>
          let trace2 := trace1 ++ selectTrace (p :: ps) cur
          match select_best_patch (p :: ps) cur env.run_sandbox with
          | none =>
            let log : IterLog :=
              { iteration := it, error_type := error_data.error_type,
                line_number := error_data.line_number,
                error_message := error_data.error_message,
                description := "No suitable patch selected", status := "failed",
                returncode := some sandbox_result.returncode }
            (create_failure_result "No suitable patch found" (some cur)
              (logs ++ [log]) initial_code, trace2)
          | some (best, _) =>
            if !(env.apply_ok it) then
              let log : IterLog :=
                { iteration := it, error_type := error_data.error_type,
                  line_number := error_data.line_number,
                  error_message := error_data.error_message,
                  selected_patch_id := some best.patch.id,
                  description := best.patch.description, status := "failed",
                  returncode := some sandbox_result.returncode }
              (create_failure_result "Failed to apply patch" (some cur)
                (logs ++ [log]) initial_code, trace2)
            else
              let iteration_status :=
                if best.score_breakdown.success then "fixed" else "retrying"
              let log : IterLog :=
                { iteration := it, error_type := error_data.error_type,
                  line_number := error_data.line_number,
                  error_message := error_data.error_message,
                  selected_patch_id := some best.patch.id,
                  description := best.patch.description,
                  patch_score := some best.score, status := iteration_status,
                  returncode := some sandbox_result.returncode,
                  backup_path := some (file_path ++ ".backup") }
              repair_loop env file_path max_iterations optimize_efficiency
                initial_code fuel best.patch.patched_code (logs ++ [log]) it trace2

/-- `autonomous_repair`: validate and read the target file, then run the
bounded loop.  Returns the outcome and the trace of sandbox executions. -/
def autonomous_repair (env : RepairEnv) (file_path : String)
    (max_iterations : Nat) (optimize_efficiency : Bool) : RepairOutcome × List String :=
  if !env.file_exists then
    (create_failure_result ("File not found: " ++ file_path) none [] "", [])
  else
    match env.read_initial with
    | .error e =>
      (create_failure_result ("Failed to read file: " ++ e) none [] "", [])
    | .ok initial_code =>
      repair_loop env file_path max_iterations optimize_efficiency initial_code
        max_iterations initial_code [] 0 []

/-! ## `Backend/core/logical_analyzer.py`: the unreachable-code analyses

The statement-level Python AST (`ast.parse`'s statement nodes, with their
`lineno`), the AST pass `PythonASTAnalyzer._analyze_unreachable_code`, the
control-flow-graph builder `ControlFlowGraphBuilder` and the CFG-based
unreachable reporting of `analyze_logic`.  Expression payloads are not
modelled: these analyses read only each statement's class, `lineno`, `body`
and (for `if`) `orelse`.  Of all the passes `analyze_logic` runs, only the
two embedded here construct `ErrorType.UNREACHABLE_CODE` findings.
-/

/-- A Python statement at the granularity these analyses see:
`simple` stands for any statement class they treat generically
(`Assign`, `Expr`, `Pass`, ...). -/
inductive Stmt where
  | simple (lineno : Nat)
  | ret (lineno : Nat)
  | brk (lineno : Nat)
  | cont (lineno : Nat)
  | ifS (lineno : Nat) (body orelse : List Stmt)
  | forS (lineno : Nat) (body : List Stmt)
  | whileS (lineno : Nat) (body : List Stmt)
  | funcDef (lineno : Nat) (body : List Stmt)

/-- The statement's `lineno`. -/
def Stmt.lineno : Stmt → Nat
  | .simple n | .ret n | .brk n | .cont n => n
  | .ifS n _ _ | .forS n _ | .whileS n _ | .funcDef n _ => n

/-- The statement's child statements, in `ast.iter_child_nodes` order. -/
def Stmt.children : Stmt → List Stmt
  | .ifS _ b o => b ++ o
  | .forS _ b | .whileS _ b | .funcDef _ b => b
  | _ => []

mutual
/-- Statement size, for the walk's termination measure. -/
def stmtSize : Stmt → Nat
  | .simple _ | .ret _ | .brk _ | .cont _ => 1
  | .ifS _ b o => 1 + blockSize b + blockSize o
  | .forS _ b | .whileS _ b | .funcDef _ b => 1 + blockSize b
/-- Total size of a statement list. -/
def blockSize : List Stmt → Nat
  | [] => 0
  | s :: rest => stmtSize s + blockSize rest
end

/-- `ast.walk`: breadth-first traversal (a FIFO of nodes each of which is
yielded and whose children are appended).  Walking a module yields the
`Module` node first — which every `isinstance` filter below discards — and
then this walk of its statement list. -/
def walkBFS : List Stmt → List Stmt
  | [] => []
  | n :: rest => n :: walkBFS (rest ++ n.children)
termination_by l => blockSize l
decreasing_by
  have key : ∀ (x : Stmt) (r : List Stmt), blockSize (r ++ x.children) < blockSize (x :: r) := by
    intro x r
    have happ : ∀ a b : List Stmt, blockSize (a ++ b) = blockSize a + blockSize b := by
      intro a b
      induction a with
      | nil => simp [blockSize]
      | cons s t ih => simp [blockSize, ih]; omega
    have hch : blockSize x.children < stmtSize x := by
      cases x <;> simp [Stmt.children, stmtSize, blockSize, happ] <;> omega
    simp only [blockSize, happ]
    omega
  exact key _ _

/-- A `LogicalError` at the granularity the claims read (the `column`,
`confidence` and `suggested_fix` payloads carry no claim content). -/
structure Finding where
  etype : String
  line : Nat
  message : String
  severity : String
deriving DecidableEq, Repr

/-- `stmt.__class__.__name__.lower()` for the statement classes the AST pass
reacts to (`Return`, `Break`, `Continue`); `none` for the rest. -/
def termKindName : Stmt → Option String
  | .ret _ => some "return"
  | .brk _ => some "break"
  | .cont _ => some "continue"
  | _ => none

/-- The body scan of `_analyze_unreachable_code`: for each
`Return`/`Break`/`Continue` at index `i` with `i < len(body) - 1`, one
UnreachableCode finding at `body[i+1].lineno`. -/
def scanBody : List Stmt → List Finding
  | s1 :: s2 :: rest =>
    (match termKindName s1 with
     | some name =>
       [{ etype := "unreachable_code", line := s2.lineno,
          message := "Unreachable code after " ++ name ++ " statement",
          severity := "medium" }]
     | none => []) ++ scanBody (s2 :: rest)
  | _ => []

/-- `PythonASTAnalyzer._analyze_unreachable_code`: walk the module, and scan
the `body` field of every `FunctionDef`/`For`/`While`/`If` node (the
`orelse` block of an `if` is not scanned). -/
def analyze_unreachable_code (m : List Stmt) : List Finding :=
  (walkBFS m).flatMap (fun n =>
    match n with
    | .funcDef _ b => scanBody b
    | .forS _ b => scanBody b
    | .whileS _ b => scanBody b
    | .ifS _ b _ => scanBody b
    | _ => [])

/-- A `ControlFlowNode` (its identity, `node_type` string and AST statement;
the mutable successor lists live in `BuildState.edges`, the predecessor
lists are never read by the analysis). -/
structure CNode where
  nid : Nat
  ntype : String
  ast_node : Option Stmt

/-- The builder's mutable state: the id counter, the `self.nodes` list and
the successor edges. -/
structure BuildState where
  counter : Nat
  nodes : List CNode
  edges : List (Nat × Nat)

/-- `_next_id`. -/
def nextId (st : BuildState) : Nat × BuildState :=
  (st.counter + 1, { st with counter := st.counter + 1 })

/-- Append to `self.nodes`. -/
def addNode (st : BuildState) (n : CNode) : BuildState :=
  { st with nodes := st.nodes ++ [n] }

/-- `add_successor` (deduplicated, as in the source). -/
def addEdge (st : BuildState) (u v : Nat) : BuildState :=
  if (u, v) ∈ st.edges then st else { st with edges := st.edges ++ [(u, v)] }

/-- The `node.node_type = 'return'` mutation. -/
def setNType (st : BuildState) (i : Nat) (t : String) : BuildState :=
  { st with nodes := st.nodes.map (fun n => if n.nid == i then { n with ntype := t } else n) }

mutual
/-- `ControlFlowGraphBuilder._process_statement`: one node per statement
chained from its predecessor; `if` allocates two unused ids and a merge
node fed by both branch tails; loops add a back-edge and a `loop_exit`
node; `return` is retyped and linked to the exit node (id 2).  Returns the
statement's last node. -/
def processStmt (stmt : Stmt) (pred : Nat) (st : BuildState) : Nat × BuildState :=
  let (nid, st) := nextId st
  let st := addNode st { nid := nid, ntype := "statement", ast_node := some stmt }
  let st := addEdge st pred nid
  match stmt with
  | .ifS _ body orelse =>
    let (_thenId, st) := nextId st
    let (_elseId, st) := nextId st
    let (mergeId, st) := nextId st
    let st := addNode st { nid := mergeId, ntype := "merge", ast_node := none }
    let (lastThen, st) := processBlock body nid st
    let st := addEdge st lastThen mergeId
    let (lastElse, st) := processBlock orelse nid st
    let st := addEdge st lastElse mergeId
    (mergeId, st)
  | .forS _ body =>
    let (lastBody, st) := processBlock body nid st
    let st := addEdge st lastBody nid
    let (loopExitId, st) := nextId st
    let st := addNode st { nid := loopExitId, ntype := "loop_exit", ast_node := none }
    let st := addEdge st nid loopExitId
    (loopExitId, st)
  | .whileS _ body =>
    let (lastBody, st) := processBlock body nid st
    let st := addEdge st lastBody nid
    let (loopExitId, st) := nextId st
    let st := addNode st { nid := loopExitId, ntype := "loop_exit", ast_node := none }
    let st := addEdge st nid loopExitId
    (loopExitId, st)
  | .ret _ =>
    let st := setNType st nid "return"
    let st := addEdge st nid 2
    (nid, st)
  | _ => (nid, st)
termination_by 2 * stmtSize stmt
decreasing_by
  all_goals simp_wf
  all_goals
    (first
      | (simp only [stmtSize]; omega))
/-- Chain a statement list from a predecessor, returning the last node. -/
def processBlock : List Stmt → Nat → BuildState → Nat × BuildState
  | [], pred, st => (pred, st)
  | s :: rest, pred, st =>
    let (last, st') := processStmt s pred st
    processBlock rest last st'
termination_by l => 2 * blockSize l + 1
decreasing_by
  all_goals simp_wf
  all_goals
    (have hpos : ∀ x : Stmt, 1 ≤ stmtSize x := by
      intro x
      cases x <;> simp [stmtSize] <;> omega
     first
      | (simp only [blockSize]; omega)
      | (have h1 := hpos ‹Stmt›
         simp only [blockSize]
         omega))
end

/-- `ControlFlowGraphBuilder.build` without the marking step: entry node
(id 1), exit node (id 2), the module body chained from entry, and the final
edge from the last node to exit. -/
def buildCFG (m : List Stmt) : BuildState :=
  let st : BuildState := { counter := 0, nodes := [], edges := [] }
  let (entryId, st) := nextId st
  let (exitId, st) := nextId st
  let st := addNode st { nid := entryId, ntype := "entry", ast_node := none }
  let st := addNode st { nid := exitId, ntype := "exit", ast_node := none }
  let (last, st) := processBlock m entryId st
  addEdge st last exitId

/-- One closure step of `_mark_reachable`'s depth-first marking: everything
already marked plus every successor of a marked node. -/
def reachStep (edges : List (Nat × Nat)) (r : List Nat) : List Nat :=
  r ++ edges.filterMap (fun e => if e.1 ∈ r ∧ ¬ e.2 ∈ r then some e.2 else none)

/-- The closure after `k` steps from the entry node (id 1). -/
def reachN (edges : List (Nat × Nat)) : Nat → List Nat
  | 0 => [1]
  | k + 1 => reachStep edges (reachN edges k)

/-- `_mark_reachable`'s visited set: the depth-first marking reaches exactly
the nodes connected to entry, computed here as the closure iterated once
per node of the graph. -/
def markedSet (st : BuildState) : List Nat :=
  reachN st.edges st.nodes.length

/-- `find_unreachable`: the unmarked nodes other than entry and exit. -/
def find_unreachable (st : BuildState) : List CNode :=
  st.nodes.filter (fun n =>
    ¬ n.nid ∈ markedSet st ∧ n.ntype ≠ "entry" ∧ n.ntype ≠ "exit")

/-- The CFG-based UnreachableCode reporting of `analyze_logic`: one finding
per unreachable node that carries an AST statement (and hence a `lineno`). -/
def cfg_unreachable_findings (m : List Stmt) : List Finding :=
  (find_unreachable (buildCFG m)).filterMap (fun n =>
    n.ast_node.map (fun s =>
      { etype := "unreachable_code", line := s.lineno,
        message := "Unreachable code detected via control flow analysis",
        severity := "medium" }))

/-- All UnreachableCode findings `analyze_logic` emits for a Python module:
the AST pass's, then the CFG pass's (no other pass constructs
`ErrorType.UNREACHABLE_CODE`). -/
def unreachable_findings (m : List Stmt) : List Finding :=
  analyze_unreachable_code m ++ cfg_unreachable_findings m

/-- The lines the body scan reports, without the message payload. -/
def scanLines : List Stmt → List Nat
  | s1 :: s2 :: rest =>
    (if (termKindName s1).isSome then [s2.lineno] else []) ++ scanLines (s2 :: rest)
  | _ => []

mutual
/-- Specification of the dead-code sites the AST pass covers, by structural
recursion: the `body` field of every nested `FunctionDef`/`For`/`While`/`If`
is scanned (never an `orelse` block, never the module's top level), and the
site's line is the statement after the terminator. -/
def deadSitesStmt : Stmt → List Nat
  | .ifS _ b o => scanLines b ++ deadSitesBlock b ++ deadSitesBlock o
  | .forS _ b => scanLines b ++ deadSitesBlock b
  | .whileS _ b => scanLines b ++ deadSitesBlock b
  | .funcDef _ b => scanLines b ++ deadSitesBlock b
  | _ => []
termination_by s => 2 * stmtSize s
decreasing_by
  all_goals simp_wf
  all_goals
    (first
      | (simp only [stmtSize]; omega))
/-- Dead-code sites of every statement of a list. -/
def deadSitesBlock : List Stmt → List Nat
  | [] => []
  | s :: rest => deadSitesStmt s ++ deadSitesBlock rest
termination_by l => 2 * blockSize l + 1
decreasing_by
  all_goals simp_wf
  all_goals
    (have hpos : ∀ x : Stmt, 1 ≤ stmtSize x := by
      intro x
      cases x <;> simp [stmtSize] <;> omega
     first
      | (simp only [blockSize]; omega)
      | (have h1 := hpos ‹Stmt›
         simp only [blockSize]
         omega))
end

/-- Reachability from the entry node (id 1) within `k` edge steps, over an
edge list: the property `_mark_reachable`'s marking computes. -/
def ReachD (E : List (Nat × Nat)) : Nat → Nat → Prop
  | 0, v => v = 1
  | k + 1, v => ReachD E k v ∨ ∃ u, ReachD E k u ∧ (u, v) ∈ E

/-- The per-node scan of `_analyze_unreachable_code` (the body of its
`ast.walk` loop). -/
def perNodeScan (n : Stmt) : List Finding :=
  match n with
  | .funcDef _ b => scanBody b
  | .forS _ b => scanBody b
  | .whileS _ b => scanBody b
  | .ifS _ b _ => scanBody b
  | _ => []

mutual
/-- The AST pass's findings restated by structural recursion (the walk
visits every node once, so the two agree as multisets). -/
def astSiteFindingsStmt : Stmt → List Finding
  | .ifS _ b o => scanBody b ++ astSiteFindingsBlock b ++ astSiteFindingsBlock o
  | .forS _ b => scanBody b ++ astSiteFindingsBlock b
  | .whileS _ b => scanBody b ++ astSiteFindingsBlock b
  | .funcDef _ b => scanBody b ++ astSiteFindingsBlock b
  | _ => []
termination_by s => 2 * stmtSize s
decreasing_by
  all_goals simp_wf
  all_goals
    (first
      | (simp only [stmtSize]; omega))
/-- The structural restatement over a statement list. -/
def astSiteFindingsBlock : List Stmt → List Finding
  | [] => []
  | s :: rest => astSiteFindingsStmt s ++ astSiteFindingsBlock rest
termination_by l => 2 * blockSize l + 1
decreasing_by
  all_goals simp_wf
  all_goals
    (have hpos : ∀ x : Stmt, 1 ≤ stmtSize x := by
      intro x
      cases x <;> simp [stmtSize] <;> omega
     first
      | (simp only [blockSize]; omega)
      | (have h1 := hpos ‹Stmt›
         simp only [blockSize]
         omega))
end

/-- A module whose dead code sits in an `else` block:
`def f(): if c: pass else: return 1; x = 2` — the `return` at line 5 is
directly followed by the line-6 statement of the same block. -/
def m_C8 : List Stmt :=
  [Stmt.funcDef 1 [Stmt.ifS 2 [Stmt.simple 3] [Stmt.ret 5, Stmt.simple 6]]]

/-! ## Comparison formulas for the scoring claims

`claimed_score` follows the words of the spec's scoring sentence (for the
refinement comparison of claim C2); `nonexit_score` and `amended_score`
are the clean component sums the code actually computes, used to state the
corrected decomposition and the corrected preference order.
-/

/-- The score formula as the specification's words state it (for comparison
with the code): +100 for exit 0; +30 for the designated primary fix
(`patch_0`); +20 per net reduction in counted error lines; −50 per net
increase, the increase penalty doubled to −100 per net increase when the
diagnosed kind changes to a cascading kind (`UnboundLocalError` /
`SyntaxError`); −10 per changed diff line beyond 3 and +10 when the diff
touches at most 2 lines; +15 for output where the baseline had none. -/
def claimed_score (baseline patched : SandboxResult) (p : Patch) : Int :=
  let exitBonus : Int := if patched.returncode = 0 then 100 else 0
  let prim : Int := if p.id = "patch_0" then 30 else 0
  let be := count_error_lines baseline.stderr
  let pe := count_error_lines patched.stderr
  let red : Int := if pe < be then ((be - pe : Nat) : Int) * 20 else 0
  let cascadeChange : Bool :=
    match extract_error_type patched.stderr, extract_error_type baseline.stderr with
    | some pt, some bt => (pt == "UnboundLocalError" || pt == "SyntaxError") && pt != bt
    | _, _ => false
  let incPen : Int :=
    if be < pe then
      if cascadeChange then -(((pe - be : Nat) : Int) * 100)
      else -(((pe - be : Nat) : Int) * 50)
    else 0
  let lc := count_diff_lines p.diff
  let diffComp : Int :=
    if 3 < lc then -(((lc - 3 : Nat) : Int) * 10) else if lc ≤ 2 then 10 else 0
  let outBonus : Int := if patched.stdout ≠ "" ∧ baseline.stdout = "" then 15 else 0
  exitBonus + prim + red + incPen + diffComp + outBonus

/-- The components of the code's total score other than the exit-0 bonus:
priority, error-count delta, the separate error-type-change penalty, diff
size, output bonus. -/
def nonexit_score (baseline patched : SandboxResult) (p : Patch) : Int :=
  let prim : Int := if p.id = "patch_0" then 30 else 0
  let be := count_error_lines baseline.stderr
  let pe := count_error_lines patched.stderr
  let red : Int := if pe < be then ((be - pe : Nat) : Int) * 20 else 0
  let incPen : Int := if be < pe then -(((pe - be : Nat) : Int) * 50) else 0
  let typePen : Int :=
    match extract_error_type patched.stderr, extract_error_type baseline.stderr with
    | some pt, some bt =>
      if pt ≠ bt then
        if pt = "UnboundLocalError" ∨ pt = "SyntaxError" then -100 else -50
      else 0
    | _, _ => 0
  let lc := count_diff_lines p.diff
  let diffComp : Int :=
    if 3 < lc then -(((lc - 3 : Nat) : Int) * 10) else if lc ≤ 2 then 10 else 0
  let outBonus : Int := if patched.stdout ≠ "" ∧ baseline.stdout = "" then 15 else 0
  prim + red + incPen + typePen + diffComp + outBonus

/-- The additive sum the code's total score actually equals: the exit-0
bonus plus the non-exit components (with the error-type-change penalty a
component of its own, added on top of the per-line increase penalty). -/
def amended_score (baseline patched : SandboxResult) (p : Patch) : Int :=
  (if patched.returncode = 0 then (100 : Int) else 0) + nonexit_score baseline patched p

/-- The first entry of maximal score of a non-empty scored list (head given
separately): the entry a stable descending sort puts first. -/
def firstMax : ScoredPatch → List ScoredPatch → ScoredPatch
  | x, [] => x
  | x, y :: ys => if (firstMax y ys).score ≤ x.score then x else firstMax y ys

/-! ## Concrete instances used by the claim counterexamples and witnesses -/

/-- Sandbox behavior contrasting an exit-0 candidate against an
error-reducing one: the original has one error line; candidate `A` exits 0;
candidate `B` exits 1 with clean stderr and fresh stdout. -/
def run_C1 : String → SandboxResult := fun code =>
  if code == "A" then
    { language := "python", stdout := "", stderr := "", returncode := 0,
      executed_command := [] }
  else if code == "B" then
    { language := "python", stdout := "ok", stderr := "", returncode := 1,
      executed_command := [] }
  else
    { language := "python", stdout := "", stderr := "AError: a", returncode := 1,
      executed_command := [] }

/-- An exit-0 candidate with a 20-line diff (diff penalty −170). -/
def patch_A : Patch :=
  { id := "patch_1", description := "exit-zero candidate", patched_code := "A",
    diff := "+1\n+2\n+3\n+4\n+5\n+6\n+7\n+8\n+9\n+10\n+11\n+12\n+13\n+14\n+15\n+16\n+17\n+18\n+19\n+20" }

/-- A non-zero-exit candidate collecting the priority, reduction, diff and
output bonuses (score 75 against `patch_A`'s −50). -/
def patch_B : Patch :=
  { id := "patch_0", description := "error-reducing candidate", patched_code := "B",
    diff := "" }

/-- Baseline with one error line of kind `AError`. -/
def base_C2 : SandboxResult :=
  { language := "python", stdout := "", stderr := "AError: a", returncode := 1,
    executed_command := [] }

/-- Patched run with two error lines and the cascading kind `SyntaxError`. -/
def patched_C2 : SandboxResult :=
  { language := "python", stdout := "",
    stderr := "SyntaxError: bad\nSyntaxError: bad2", returncode := 1,
    executed_command := [] }

/-- The candidate whose score the C2 counterexample computes. -/
def p_C2 : Patch :=
  { id := "patch_1", description := "swap", patched_code := "P", diff := "" }

/-- Sandbox behavior for the C2 counterexample. -/
def run_C2 : String → SandboxResult := fun _ => patched_C2

/-- A candidate with an 11-line diff and no bonuses: score −80. -/
def p_C3 : Patch :=
  { id := "patch_9", description := "broad rewrite", patched_code := "N",
    diff := "+1\n+2\n+3\n+4\n+5\n+6\n+7\n+8\n+9\n+10\n+11" }

/-- Sandbox behavior for the C3 instance: everything exits 1, silently. -/
def run_C3 : String → SandboxResult := fun _ =>
  { language := "python", stdout := "", stderr := "", returncode := 1,
    executed_command := [] }

/-- Exit-0 candidate for the C1 witness (all other components equal). -/
def pA_w : Patch :=
  { id := "patch_1", description := "a", patched_code := "A", diff := "" }

/-- Non-zero-exit candidate for the C1 witness. -/
def pB_w : Patch :=
  { id := "patch_2", description := "b", patched_code := "B", diff := "" }

/-- Sandbox behavior for the C1 witness: `A` exits 0, everything else 1. -/
def run_C1w : String → SandboxResult := fun code =>
  if code == "A" then
    { language := "python", stdout := "", stderr := "", returncode := 0,
      executed_command := [] }
  else
    { language := "python", stdout := "", stderr := "", returncode := 1,
      executed_command := [] }

/-- A sandbox result whose stderr matches neither extractor shape. -/
def sig_C6 : SandboxResult :=
  { language := "python", stdout := "", stderr := "something went wrong",
    returncode := 1, executed_command := [] }

/-- A controller environment whose sandbox always reports an unparseable
failure: `SyntaxError` with no colon form, so the extractor's kind is null. -/
def env_C6 : RepairEnv :=
  { file_exists := true
    read_initial := .ok "x = 1"
    run_sandbox := fun _ =>
      { language := "python", stdout := "", stderr := "SyntaxError",
        returncode := 1, executed_command := [] }
    parse_test_cases := fun _ => 0
    tests_failed := fun _ => false
    validate_logic := fun _ _ => { is_logically_correct := true, issues := [] }
    format_logical_error := fun _ => none
    detect_semantic := fun _ _ => []
    suggest_semantic_fixes := fun _ _ => []
    generate_patches := fun _ _ _ => []
    apply_ok := fun _ => true }

/-- A runtime traceback whose innermost frame is a standard-library file
(`/usr/lib/python3.10/random.py`, line 155); the user's own frame is
`main.py`, line 3. -/
def sig_C7 : SandboxResult :=
  { language := "python", stdout := ""
    stderr := "Traceback (most recent call last):\n  File \"main.py\", line 3, in <module>\n    random.seed(x)\n  File \"/usr/lib/python3.10/random.py\", line 155, in seed\n    super().seed(a)\nTypeError: unhashable type"
    returncode := 1, executed_command := [] }

/-- The source text belonging to `sig_C7`. -/
def code_C7 : String :=
  "import random\nx = []\nrandom.seed(x)\n"

/-- A sandbox environment whose subprocess call always times out. -/
def env_C10 : SandboxEnv :=
  { pathExists := fun _ => true
    readFile := fun _ => .ok "print(1)"
    copyFile := fun _ _ => .ok ()
    pyCompile := fun _ => .ok
    runProc := fun _ => .error .timeoutExpired }

/-- A controller environment whose target file does not exist. -/
def env_C5 : RepairEnv :=
  { file_exists := false
    read_initial := .error "No such file or directory"
    run_sandbox := fun _ =>
      { language := "python", stdout := "", stderr := "", returncode := 0,
        executed_command := [] }
    parse_test_cases := fun _ => 0
    tests_failed := fun _ => false
    validate_logic := fun _ _ => { is_logically_correct := true, issues := [] }
    format_logical_error := fun _ => none
    detect_semantic := fun _ _ => []
    suggest_semantic_fixes := fun _ _ => []
    generate_patches := fun _ _ _ => []
    apply_ok := fun _ => true }

/-! ## Supporting lemmas: the score decomposition -/

set_option maxHeartbeats 1000000 in
/-- The code's folded total score equals the clean component sum
`amended_score` (exit bonus, priority, count delta, the separate
type-change penalty, diff size, output). -/
theorem evaluate_patch_total_eq (p : Patch) (oc : String)
    (base : SandboxResult) (run : String → SandboxResult) :
    (evaluate_patch p oc base run).total_score =
      amended_score base (run p.patched_code) p := by
  rcases hpt : extract_error_type (run p.patched_code).stderr with _ | pt <;>
    rcases hbt : extract_error_type base.stderr with _ | bt <;>
      simp only [evaluate_patch, amended_score, nonexit_score, hpt, hbt] <;>
        split_ifs <;> ring

/-- The code's total score is the exit-0 bonus plus the non-exit components. -/
theorem score_one_eq (oc : String) (base : SandboxResult)
    (run : String → SandboxResult) (p : Patch) :
    (score_one oc base run p).score =
      (if (run p.patched_code).returncode = 0 then (100 : Int) else 0) +
        nonexit_score base (run p.patched_code) p := by
  simpa [score_one, amended_score] using evaluate_patch_total_eq p oc base run

/-! ## Supporting lemmas: the stable descending sort -/

/-- Inserting an entry passes over exactly the strictly higher scores. -/
theorem orderedInsert_filter_self (s : Int) (x : ScoredPatch)
    (l : List ScoredPatch) (hx : x.score = s) :
    (List.orderedInsert rankRel x l).filter (fun y => y.score == s) =
      x :: l.filter (fun y => y.score == s) := by
  induction l with
  | nil => simp [List.orderedInsert, hx]
  | cons y ys ih =>
    by_cases h : rankRel x y
    · simp [List.orderedInsert, h, hx]
    · have hy : ¬ (y.score == s) = true := by
        simp only [rankRel, not_le] at h
        simp only [beq_iff_eq]
        omega
      simp [List.orderedInsert, h, hy, ih]

/-- Inserting an entry of another score leaves a score class's subsequence
unchanged. -/
theorem orderedInsert_filter_other (s : Int) (x : ScoredPatch)
    (l : List ScoredPatch) (hx : x.score ≠ s) :
    (List.orderedInsert rankRel x l).filter (fun y => y.score == s) =
      l.filter (fun y => y.score == s) := by
  have hxb : ¬ (x.score == s) = true := by simp [beq_iff_eq, hx]
  induction l with
  | nil => simp [List.orderedInsert, hxb]
  | cons y ys ih =>
    by_cases h : rankRel x y
    · simp [List.orderedInsert, h, hxb]
    · simp only [List.orderedInsert, if_neg h]
      by_cases hy : (y.score == s) = true
      · simp [List.filter, hy, ih]
      · simp [List.filter, hy, ih]

/-- Stability of the ranking: within each score class the sorted list keeps
the declaration order (Python's `sort` is stable). -/
theorem insertionSort_filter_stable (s : Int) (l : List ScoredPatch) :
    (List.insertionSort rankRel l).filter (fun y => y.score == s) =
      l.filter (fun y => y.score == s) := by
  induction l with
  | nil => rfl
  | cons x xs ih =>
    by_cases hx : x.score = s
    · have hxb : (x.score == s) = true := by simp [beq_iff_eq, hx]
      simp only [List.insertionSort]
      rw [orderedInsert_filter_self s x _ hx, ih]
      simp [List.filter, hxb]
    · have hxb : ¬ (x.score == s) = true := by simp [beq_iff_eq, hx]
      simp only [List.insertionSort]
      rw [orderedInsert_filter_other s x _ hx, ih]
      simp [List.filter, hxb]

/-- The sorted list's head is the first entry of maximal score. -/
theorem insertionSort_head_firstMax (x : ScoredPatch) (xs : List ScoredPatch) :
    ∃ t, List.insertionSort rankRel (x :: xs) = firstMax x xs :: t := by
  induction xs generalizing x with
  | nil => exact ⟨[], rfl⟩
  | cons y ys ih =>
    obtain ⟨t, ht⟩ := ih y
    simp only [List.insertionSort] at ht ⊢
    rw [ht]
    by_cases h : rankRel x (firstMax y ys)
    · refine ⟨firstMax y ys :: t, ?_⟩
      simp only [List.orderedInsert, if_pos h, firstMax]
      have : (firstMax y ys).score ≤ x.score := h
      simp [this]
    · refine ⟨List.orderedInsert rankRel x t, ?_⟩
      simp only [List.orderedInsert, if_neg h, firstMax]
      have : ¬ (firstMax y ys).score ≤ x.score := h
      simp [this]

/-- Every entry's score is at most the first maximum's. -/
theorem firstMax_is_max (x : ScoredPatch) (xs : List ScoredPatch) :
    ∀ z ∈ x :: xs, z.score ≤ (firstMax x xs).score := by
  induction xs generalizing x with
  | nil => intro z hz; simp at hz; simp [hz, firstMax]
  | cons y ys ih =>
    intro z hz
    simp only [firstMax]
    by_cases h : (firstMax y ys).score ≤ x.score
    · rw [if_pos h]
      rcases List.mem_cons.1 hz with rfl | hz'
      · exact le_refl _
      · exact le_trans (ih y z hz') h
    · rw [if_neg h]
      rcases List.mem_cons.1 hz with rfl | hz'
      · omega
      · exact ih y z hz'

/-- The first maximum splits the list into a strictly lower-scoring prefix,
itself, and a tail: the earliest declaration attaining the maximum. -/
theorem firstMax_split (x : ScoredPatch) (xs : List ScoredPatch) :
    ∃ u v, x :: xs = u ++ firstMax x xs :: v ∧
      ∀ z ∈ u, z.score < (firstMax x xs).score := by
  induction xs generalizing x with
  | nil => exact ⟨[], [], rfl, by simp⟩
  | cons y ys ih =>
    simp only [firstMax]
    by_cases h : (firstMax y ys).score ≤ x.score
    · rw [if_pos h]
      exact ⟨[], y :: ys, rfl, by simp⟩
    · rw [if_neg h]
      obtain ⟨u, v, hsplit, hlt⟩ := ih y
      refine ⟨x :: u, v, by simp [hsplit], ?_⟩
      intro z hz
      rcases List.mem_cons.1 hz with rfl | hz'
      · omega
      · exact hlt z hz'

/-- `select_best_patch` on a non-empty list: the ranking is the stable
descending sort of the scored list and the best entry is its head, the
first entry of maximal score. -/
theorem select_best_patch_cons (c : Patch) (cs : List Patch) (oc : String)
    (run : String → SandboxResult) :
    select_best_patch (c :: cs) oc run =
      some (firstMax (score_one oc (run oc) run c)
              ((cs.map (score_one oc (run oc) run))),
            List.insertionSort rankRel (score_all (c :: cs) oc (run oc) run)) := by
  obtain ⟨t, ht⟩ :=
    insertionSort_head_firstMax (score_one oc (run oc) run c)
      (cs.map (score_one oc (run oc) run))
  have hsa : score_all (c :: cs) oc (run oc) run =
      score_one oc (run oc) run c :: cs.map (score_one oc (run oc) run) := rfl
  simp only [select_best_patch, hsa, ht]

/-! ## Claim theorems: the patch evaluator/selector (C1–C4, C9) -/

/-- C1, counterexample: the claim "an exit-0 candidate is always ranked
above a non-zero one and the non-zero one is never returned" fails on the
code.  `patch_A` exits 0 but carries a 20-line diff (score −50); `patch_B`
exits 1 yet collects the priority, error-reduction, minimal-diff and output
bonuses (score 75), so `select_best_patch` returns `patch_B` whichever way
the two are declared. -/
theorem C1_cex_exit_zero_can_lose :
    (run_C1 patch_A.patched_code).returncode = 0 ∧
    (run_C1 patch_B.patched_code).returncode ≠ 0 ∧
    (select_best_patch [patch_A, patch_B] "orig" run_C1).map
      (fun r => r.1.patch.id) = some "patch_0" ∧
    (select_best_patch [patch_B, patch_A] "orig" run_C1).map
      (fun r => r.1.patch.id) = some "patch_0" := by
  refine ⟨by decide, by decide, by decide, by decide⟩

/-- C1 (amended): when candidate `A`'s patched code exits 0, `B`'s exits
non-zero, and the non-exit score components do not favor `B` (in particular
when they are equal), `A` outscores `B` by the exit bonus, `B` is never
returned as the best patch, and `A` is ranked above `B` — regardless of the
order in which the two appear in the list. -/
theorem C1_exit_zero_preferred (cands : List Patch) (oc : String)
    (run : String → SandboxResult) (A B : Patch)
    (hA : A ∈ cands) (hB : B ∈ cands)
    (hA0 : (run A.patched_code).returncode = 0)
    (hB0 : (run B.patched_code).returncode ≠ 0)
    (hcomp : nonexit_score (run oc) (run B.patched_code) B ≤
             nonexit_score (run oc) (run A.patched_code) A) :
    ∀ best ranking, select_best_patch cands oc run = some (best, ranking) →
      (score_one oc (run oc) run B).score < (score_one oc (run oc) run A).score ∧
      best ≠ score_one oc (run oc) run B ∧
      ∀ u v, ranking = u ++ score_one oc (run oc) run B :: v →
        score_one oc (run oc) run A ∉ v := by
  intro best ranking hsel
  have hsA := score_one_eq oc (run oc) run A
  have hsB := score_one_eq oc (run oc) run B
  rw [if_pos hA0] at hsA
  rw [if_neg hB0] at hsB
  have hAB : (score_one oc (run oc) run B).score <
      (score_one oc (run oc) run A).score := by omega
  rcases cands with _ | ⟨c, cs⟩
  · cases hA
  · rw [select_best_patch_cons c cs oc run] at hsel
    have hp := Prod.ext_iff.1 (Option.some.inj hsel)
    have hbest : best = firstMax (score_one oc (run oc) run c)
        (cs.map (score_one oc (run oc) run)) := by
      have h1 := hp.1
      simpa using h1.symm
    have hrank : ranking =
        List.insertionSort rankRel (score_all (c :: cs) oc (run oc) run) := by
      have h2 := hp.2
      simpa using h2.symm
    refine ⟨hAB, ?_, ?_⟩
    · -- the best entry scores at least as high as A's entry, hence above B's
      have hmemA : score_one oc (run oc) run A ∈
          score_one oc (run oc) run c :: cs.map (score_one oc (run oc) run) := by
        rcases List.mem_cons.1 hA with rfl | hA'
        · exact List.mem_cons_self _ _
        · exact List.mem_cons_of_mem _ (List.mem_map_of_mem _ hA')
      have hle := firstMax_is_max (score_one oc (run oc) run c)
        (cs.map (score_one oc (run oc) run)) _ hmemA
      intro hEq
      rw [hbest] at hEq
      have : (firstMax (score_one oc (run oc) run c)
          (cs.map (score_one oc (run oc) run))).score =
          (score_one oc (run oc) run B).score := by rw [← hEq]
      omega
    · -- in the sorted ranking nothing after B's entry can outscore it
      intro u v hsplit hmemv
      have hsorted : ranking.Pairwise rankRel := by
        rw [hrank]
        exact List.sorted_insertionSort rankRel _
      rw [hsplit] at hsorted
      have h2 := (List.pairwise_append.1 hsorted).2.1
      have h3 := (List.pairwise_cons.1 h2).1 _ hmemv
      have : (score_one oc (run oc) run A).score ≤
          (score_one oc (run oc) run B).score := h3
      omega

/-- C1, witness for the amended theorem at a concrete instance: with equal
non-exit components, the non-zero candidate `pB_w` is not the selected
best. -/
theorem C1_witness :
    (select_best_patch [pA_w, pB_w] "orig" run_C1w).map
      (fun r => decide (r.1 ≠ score_one "orig" (run_C1w "orig") run_C1w pB_w)) =
      some true := by
  rcases hsel : select_best_patch [pA_w, pB_w] "orig" run_C1w with _ | ⟨best, ranking⟩
  · exact absurd hsel (by decide)
  · have h := C1_exit_zero_preferred [pA_w, pB_w] "orig" run_C1w pA_w pB_w
      (by simp) (by simp [pA_w, pB_w]) (by decide) (by decide) (by decide)
      best ranking hsel
    simp [h.2.1]

/-- C2, counterexample: at a baseline of one `AError` line and a patched run
of two `SyntaxError` lines, the code's total is −140 (−50 for the extra
error line plus a separate −100 for the cascading type change, plus the +10
minimal-diff bonus) whereas the claim's component sum — with the increase
penalty merely "doubled to −100" — is −90. -/
theorem C2_cex_score_not_claimed_sum :
    (evaluate_patch p_C2 "orig" base_C2 run_C2).total_score = -140 ∧
    claimed_score base_C2 (run_C2 p_C2.patched_code) p_C2 = -90 ∧
    (evaluate_patch p_C2 "orig" base_C2 run_C2).total_score ≠
      claimed_score base_C2 (run_C2 p_C2.patched_code) p_C2 := by
  refine ⟨by decide, by decide, by decide⟩

/-- C2 (amended): the candidate's total score equals exactly the sum of
these additive components and nothing else: +100 if the patched exit code
is 0; +30 if the candidate is the designated primary fix (`patch_0`);
+20 per net reduction in counted error-like lines and −50 per net increase;
a separate error-type-change penalty, applied whenever both runs report an
error kind and the kind changed (independently of the line counts): −100 if
the new kind is cascading (`UnboundLocalError`/`SyntaxError`), −50
otherwise; −10 per changed diff line beyond 3 and +10 if the diff touches
at most 2 lines; +15 if the candidate produces output where the baseline
produced none. -/
theorem C2_total_score_decomposition (p : Patch) (oc : String)
    (base : SandboxResult) (run : String → SandboxResult) :
    (evaluate_patch p oc base run).total_score =
      amended_score base (run p.patched_code) p :=
  evaluate_patch_total_eq p oc base run

/-- C3, counterexample: a non-empty candidate list whose only candidate
scores −80 — yet selection does not fail: `select_best_patch` still returns
a patch. -/
theorem C3_cex_nonpositive_still_selected :
    ((score_all [p_C3] "orig" (run_C3 "orig") run_C3).all
      (fun sp => decide (sp.score ≤ 0))) = true ∧
    select_best_patch [p_C3] "orig" run_C3 ≠ none := by
  refine ⟨by decide, by decide⟩

/-- C3 (amended): for every non-empty candidate list in which every
candidate's score is non-positive, selection still succeeds — the
top-ranked (non-positively scored) patch is returned, so the controller's
"no suitable patch" Failed exit cannot fire on a non-empty list; only the
empty list (generation failure) yields no patch. -/
theorem C3_nonpositive_scores_still_select (c : Patch) (cs : List Patch)
    (oc : String) (run : String → SandboxResult)
    (hnp : ∀ sp ∈ score_all (c :: cs) oc (run oc) run, sp.score ≤ 0) :
    ∃ best ranking, select_best_patch (c :: cs) oc run = some (best, ranking) ∧
      best.score ≤ 0 := by
  refine ⟨_, _, select_best_patch_cons c cs oc run, ?_⟩
  apply hnp
  obtain ⟨u, v, hs, _⟩ :=
    firstMax_split (score_one oc (run oc) run c) (cs.map (score_one oc (run oc) run))
  have hmem : firstMax (score_one oc (run oc) run c)
      (cs.map (score_one oc (run oc) run)) ∈
      score_one oc (run oc) run c :: cs.map (score_one oc (run oc) run) := by
    rw [hs]
    exact List.mem_append_right _ (List.mem_cons_self _ _)
  exact hmem

/-- C3, witness: the amended theorem applied to the concrete one-candidate
list whose score is −80. -/
theorem C3_witness :
    (select_best_patch [p_C3] "orig" run_C3).map
      (fun r => decide (r.1.score ≤ 0)) = some true := by
  rcases hsel : select_best_patch [p_C3] "orig" run_C3 with _ | ⟨best, ranking⟩
  · exact absurd hsel (by decide)
  · obtain ⟨b, r, hbr, hble⟩ :=
      C3_nonpositive_scores_still_select p_C3 [] "orig" run_C3 (by decide)
    rw [hsel] at hbr
    have hb : best = b := by
      simpa using (Prod.ext_iff.1 (Option.some.inj hbr)).1
    simp only [Option.map]
    rw [hb]
    simp [hble]

/-- C4: `select_best_patch` returns null exactly for the empty candidate
list: every non-empty list yields some scored patch. -/
theorem C4_select_none_iff_empty (cands : List Patch) (oc : String)
    (run : String → SandboxResult) :
    select_best_patch cands oc run = none ↔ cands = [] := by
  cases cands with
  | nil => simp [select_best_patch]
  | cons c cs => simp [select_best_patch_cons c cs oc run]

/-- C9: selection is deterministic and its tie-break is declaration order.
Two runs on the same inputs give the same result (the embedding of the
scorer and the sort is a pure function of the candidate list, the baseline
and the sandbox); the ranking is a permutation of the scored candidates,
descending in score, and within each score class it keeps declaration order
(Python's sort is stable); the best patch is the earliest-declared
candidate attaining the maximal score — so of two equal-scoring candidates
the earlier one wins. -/
theorem C9_deterministic_stable_selection (c : Patch) (cs : List Patch)
    (oc : String) (run : String → SandboxResult) :
    select_best_patch (c :: cs) oc run = select_best_patch (c :: cs) oc run ∧
    ∃ best ranking, select_best_patch (c :: cs) oc run = some (best, ranking) ∧
      ranking.Perm (score_all (c :: cs) oc (run oc) run) ∧
      ranking.Pairwise rankRel ∧
      (∀ s : Int, ranking.filter (fun y => y.score == s) =
        (score_all (c :: cs) oc (run oc) run).filter (fun y => y.score == s)) ∧
      (∀ z ∈ score_all (c :: cs) oc (run oc) run, z.score ≤ best.score) ∧
      ∃ u v, score_all (c :: cs) oc (run oc) run = u ++ best :: v ∧
        ∀ z ∈ u, z.score < best.score := by
  refine ⟨rfl, _, _, select_best_patch_cons c cs oc run, ?_, ?_, ?_, ?_, ?_⟩
  · exact List.perm_insertionSort rankRel _
  · exact List.sorted_insertionSort rankRel _
  · intro s
    exact insertionSort_filter_stable s _
  · intro z hz
    exact firstMax_is_max (score_one oc (run oc) run c)
      (cs.map (score_one oc (run oc) run)) z hz
  · exact firstMax_split (score_one oc (run oc) run c)
      (cs.map (score_one oc (run oc) run))

/-! ## Supporting lemmas: the error extractor (C6, C7) -/

/-- What `dropWhile` keeps first does not satisfy the predicate. -/
theorem dropWhile_head_false {α : Type} (p : α → Bool) :
    ∀ (l : List α) (c : α) (t : List α), l.dropWhile p = c :: t → p c = false := by
  intro l
  induction l with
  | nil => intro c t h; cases h
  | cons a l ih =>
    intro c t h
    by_cases hp : p a = true
    · rw [List.dropWhile_cons_of_pos hp] at h
      exact ih c t h
    · rw [List.dropWhile_cons_of_neg hp] at h
      cases h
      simpa using hp

/-- A non-empty stripped string ends in a non-whitespace character. -/
theorem pyStrip_data_ends (s : String) (h : pyStrip s ≠ "") :
    ∃ cs c, (pyStrip s).data = cs ++ [c] ∧ pyWhitespaceChar c = false := by
  unfold pyStrip at h ⊢
  rcases hcase : (s.data.dropWhile pyWhitespaceChar).reverse.dropWhile pyWhitespaceChar
    with _ | ⟨d, w'⟩
  · rw [hcase] at h
    simp at h
  · refine ⟨w'.reverse, d, ?_, ?_⟩
    · simp
    · exact dropWhile_head_false pyWhitespaceChar _ d w' hcase

/-- A string whose character list ends in a non-whitespace character strips
to something non-empty. -/
theorem pyStrip_ne_empty_of_last (cs : List Char) (c : Char)
    (hc : pyWhitespaceChar c = false) : pyStrip (String.mk (cs ++ [c])) ≠ "" := by
  have hdrop : ∃ u, (cs ++ [c]).dropWhile pyWhitespaceChar = u ++ [c] := by
    rw [List.dropWhile_append]
    by_cases he : (cs.dropWhile pyWhitespaceChar).isEmpty
    · rw [if_pos he]
      exact ⟨[], by simp [List.dropWhile, hc]⟩
    · rw [if_neg he]
      exact ⟨cs.dropWhile pyWhitespaceChar, rfl⟩
  obtain ⟨u, hu⟩ := hdrop
  unfold pyStrip
  intro hcon
  have hdata := congrArg String.data hcon
  simp only [] at hdata
  rw [hu, List.reverse_append] at hdata
  simp only [List.reverse_singleton, List.singleton_append] at hdata
  rw [List.dropWhile_cons_of_neg (show ¬ pyWhitespaceChar c = true by simp [hc])]
    at hdata
  simp at hdata

/-- `pySplitChars` never returns the empty list of pieces. -/
theorem pySplitChars_ne_nil (sep : Char) (cs : List Char) :
    pySplitChars sep cs ≠ [] := by
  cases cs with
  | nil => simp [pySplitChars]
  | cons c cs =>
    by_cases h : (c == sep) = true
    · simp [pySplitChars, h]
    · simp only [pySplitChars, h]
      rcases pySplitChars sep cs with _ | ⟨h', t⟩ <;> simp

/-- Splitting a list whose last character is non-whitespace at newlines: the
final piece ends in that character. -/
theorem pySplitChars_last (c : Char) (hc : pyWhitespaceChar c = false) :
    ∀ cs : List Char,
      ∃ ch, (pySplitChars '\n' (cs ++ [c])).getLast? = some (ch ++ [c]) := by
  have hcn : (c == '\n') = false := by
    rcases hbe : (c == '\n') with _ | _
    · rfl
    · have : c = '\n' := by simpa using hbe
      rw [this] at hc
      simp [pyWhitespaceChar] at hc
  intro cs
  induction cs with
  | nil =>
    refine ⟨[], ?_⟩
    simp [pySplitChars, hcn]
  | cons c' cs ih =>
    obtain ⟨ch, hch⟩ := ih
    by_cases h' : (c' == '\n') = true
    · rw [show pySplitChars '\n' ((c' :: cs) ++ [c]) =
          [] :: pySplitChars '\n' (cs ++ [c]) from by simp [pySplitChars, h']]
      rcases hrest : pySplitChars '\n' (cs ++ [c]) with _ | ⟨r1, rt⟩
      · exact absurd hrest (pySplitChars_ne_nil _ _)
      · rw [hrest] at hch
        exact ⟨ch, by rw [List.getLast?_cons_cons, hch]⟩
    · have h'' : (c' == '\n') = false := by
        rcases hbe : (c' == '\n') with _ | _
        · rfl
        · exact absurd hbe (by simpa using h')
      simp only [List.cons_append, pySplitChars, h'']
      rcases hrest : pySplitChars '\n' (cs ++ [c]) with _ | ⟨r1, rt⟩
      · exact absurd hrest (pySplitChars_ne_nil _ _)
      · rw [hrest] at hch
        simp only [Bool.false_eq_true, if_false]
        rcases rt with _ | ⟨t1, tt⟩
        · simp only [List.getLast?_singleton] at hch
          refine ⟨c' :: ch, ?_⟩
          have : r1 = ch ++ [c] := by simpa using hch
          simp [this]
        · rw [List.getLast?_cons_cons] at hch
          exact ⟨ch, by rw [List.getLast?_cons_cons, hch]⟩

/-- Whenever the stripped stderr is non-blank, the stack-unwind parser's
fallback guarantees a non-null kind: the last stderr line strips to
something non-empty, and failing the `category:message` match the whole
line becomes the kind. -/
theorem parse_runtime_error_kind_some (stderr : String) (cl : List String)
    (h : pyStrip stderr ≠ "") :
    (parse_runtime_error stderr cl).error_type ≠ none := by
  obtain ⟨cs, c, hdata, hc⟩ := pyStrip_data_ends stderr h
  obtain ⟨ch, hch⟩ := pySplitChars_last c hc cs
  have hlines : (pySplitOn '\n' (pyStrip stderr)).getLast? =
      some (String.mk (ch ++ [c])) := by
    unfold pySplitOn
    rw [List.getLast?_map, hdata, hch]
    rfl
  unfold parse_runtime_error
  simp only [hlines]
  rcases hm : matchErrKindLine (String.mk (ch ++ [c])) with _ | ⟨t, msg⟩
  · have hne := pyStrip_ne_empty_of_last ch c hc
    simp [hm, hne]
  · simp [hm]

/-- The prefix test of the three colon keyword forms. -/
theorem syntaxKwAt_none_iff (cs : List Char) :
    syntaxKwAt cs = none ↔
      ¬("SyntaxError:".data <+: cs) ∧ ¬("IndentationError:".data <+: cs) ∧
        ¬("TabError:".data <+: cs) := by
  unfold syntaxKwAt
  split_ifs with h1 h2 h3 <;>
    simp_all [List.isPrefixOf_iff_prefix]

/-- The leftmost scan finds a colon keyword form exactly when one occurs as
an infix of the stderr. -/
theorem searchSyntaxKw_none_iff (cs : List Char) :
    searchSyntaxKw cs = none ↔
      ¬("SyntaxError:".data <:+: cs) ∧ ¬("IndentationError:".data <:+: cs) ∧
        ¬("TabError:".data <:+: cs) := by
  induction cs with
  | nil =>
    simp [searchSyntaxKw, List.infix_nil]
  | cons c cs ih =>
    have hstep : searchSyntaxKw (c :: cs) = none ↔
        syntaxKwAt (c :: cs) = none ∧ searchSyntaxKw cs = none := by
      rcases hk : syntaxKwAt (c :: cs) with _ | k <;>
        simp [searchSyntaxKw, hk]
    rw [hstep, ih, syntaxKwAt_none_iff]
    rw [List.infix_cons_iff, List.infix_cons_iff, List.infix_cons_iff]
    tauto

/-- The syntax branch fires exactly on a keyword mention, and then its kind
is the leftmost colon-form match. -/
theorem parse_syntax_error_eq (stderr : String) (cl : List String) :
    (mentions_syntax_kw stderr = false → parse_syntax_error stderr cl = none) ∧
    (mentions_syntax_kw stderr = true →
      ∃ r, parse_syntax_error stderr cl = some r ∧
        r.error_type = searchSyntaxKw stderr.data) := by
  constructor
  · intro hm
    simp [parse_syntax_error, hm]
  · intro hm
    unfold parse_syntax_error
    rw [if_neg (by simp [hm])]
    exact ⟨_, rfl, rfl⟩

/-- The scan result is null exactly when the stderr lacks every colon
keyword form. -/
theorem searchSyntaxKw_none_iff_colon (stderr : String) :
    searchSyntaxKw stderr.data = none ↔ has_syntax_kw_colon stderr = false := by
  rw [searchSyntaxKw_none_iff]
  unfold has_syntax_kw_colon strContains
  simp only [Bool.or_eq_false_iff, decide_eq_false_iff_not]
  tauto

/-! ## Claim theorems: the error extractor and the controller's reaction
(C6, C7) -/

/-- C6, counterexample: `something went wrong` (exit 1) matches neither
extractor shape — no syntax keyword, no `category:message` line, no
`File "...", line N` frame — yet the extractor's kind is not null: the
runtime parser falls back to the whole last stderr line. -/
theorem C6_cex_unmatched_stderr_kind_not_null :
    sig_C6.returncode ≠ 0 ∧ pyStrip sig_C6.stderr ≠ "" ∧
    mentions_syntax_kw sig_C6.stderr = false ∧
    matchErrKindLine "something went wrong" = none ∧
    searchFileLine sig_C6.stderr.data = none ∧
    (parse_error sig_C6 "x = 1").error_type = some "something went wrong" := by
  refine ⟨by decide, by decide, by decide, by decide, by decide, by decide⟩

/-- C6 (amended): the extractor's kind is null exactly when the exit code is
0 or the stderr is blank, or the stderr mentions a syntax-category keyword
(`SyntaxError`/`IndentationError`/`TabError`) without its colon form — in
every other non-matching case the runtime parser falls back to the last
stderr line as a non-null kind.  And whenever an iteration's sandbox run
has a non-zero exit and the extractor's kind is null, the controller stops:
the repair loop returns the Failed status with reason
"Could not parse error". -/
theorem C6_kind_null_characterization :
    (∀ (signals : SandboxResult) (user_code : String),
      (parse_error signals user_code).error_type = none ↔
        (signals.returncode = 0 ∨ pyStrip signals.stderr = "" ∨
          (mentions_syntax_kw signals.stderr = true ∧
           has_syntax_kw_colon signals.stderr = false))) ∧
    (∀ (env : RepairEnv) (fp : String) (mi : Nat) (oe : Bool) (ic : String)
       (fuel : Nat) (cur : String) (logs : List IterLog) (iters : Nat)
       (trace : List String),
      (env.run_sandbox cur).returncode ≠ 0 →
      (parse_error (env.run_sandbox cur) cur).error_type = none →
      (repair_loop env fp mi oe ic (fuel + 1) cur logs iters trace).1.final_status
          = "failed" ∧
        (repair_loop env fp mi oe ic (fuel + 1) cur logs iters trace).1.reason
          = "Could not parse error") := by
  constructor
  · intro signals user_code
    simp only [parse_error]
    split_ifs with h0
    · constructor
      · intro _
        rcases h0 with h | h
        · exact Or.inl h
        · exact Or.inr (Or.inl h)
      · intro _
        rfl
    · push_neg at h0
      rcases hm : mentions_syntax_kw signals.stderr with _ | _
      · have hsyn := (parse_syntax_error_eq signals.stderr (load_code_lines user_code)).1 hm
        rw [hsyn]
        have hrt := parse_runtime_error_kind_some signals.stderr (load_code_lines user_code) h0.2
        constructor
        · intro hcc
          exact absurd hcc hrt
        · intro hOr
          rcases hOr with h | h | ⟨hm', _⟩
          · exact absurd h h0.1
          · exact absurd h h0.2
          · simp at hm'
      · obtain ⟨r, hr, hrt⟩ := (parse_syntax_error_eq signals.stderr (load_code_lines user_code)).2 hm
        rw [hr]
        show r.error_type = none ↔ _
        rw [hrt, searchSyntaxKw_none_iff_colon]
        constructor
        · intro hc
          exact Or.inr (Or.inr ⟨rfl, hc⟩)
        · intro hOr
          rcases hOr with h | h | ⟨_, hc⟩
          · exact absurd h h0.1
          · exact absurd h h0.2
          · exact hc
  · intro env fp mi oe ic fuel cur logs iters trace hrc hnull
    constructor
    · show (repair_loop env fp mi oe ic (fuel + 1) cur logs iters trace).1.final_status = "failed"
      simp only [repair_loop]
      rw [if_neg hrc, hnull]
      rfl
    · show (repair_loop env fp mi oe ic (fuel + 1) cur logs iters trace).1.reason = "Could not parse error"
      simp only [repair_loop]
      rw [if_neg hrc, hnull]
      rfl

/-- C6, witness: the amended theorem's controller half at a concrete
environment whose sandbox reports `SyntaxError` without a colon form. -/
theorem C6_witness :
    (repair_loop env_C6 "user.py" 5 false "x = 1" 5 "x = 1" [] 0 []).1.final_status
        = "failed" ∧
      (repair_loop env_C6 "user.py" 5 false "x = 1" 5 "x = 1" [] 0 []).1.reason
        = "Could not parse error" :=
  C6_kind_null_characterization.2 env_C6 "user.py" 5 false "x = 1" 4 "x = 1" [] 0 []
    (by decide) (by decide)

set_option maxRecDepth 100000 in
/-- C7 (code bug): at a runtime traceback whose innermost frame is the
standard-library file `/usr/lib/python3.10/random.py` (line 155) while the
user's own frame is `main.py` line 3, the extractor takes the line number
and snippet from the library frame — its filename filter
`endswith('.py')` accepts library files, contradicting the source's own
comment "Only capture line number from main.py (user code), not library
files". -/
theorem C7_library_frame_taken :
    (parse_error sig_C7 code_C7).line_number = some 155 ∧
    (parse_error sig_C7 code_C7).error_type = some "TypeError" ∧
    (parse_error sig_C7 code_C7).faulty_snippet = some "super().seed(a)" ∧
    (findFileFrame (pySplitOn '\n' (pyStrip sig_C7.stderr))).map (fun r => r.2.1) =
      some "/usr/lib/python3.10/random.py" ∧
    strContains sig_C7.stderr "File \"main.py\", line 3" = true := by
  refine ⟨by decide, by decide, by decide, by decide, by decide⟩

/-! ## Supporting lemmas: the repair loop's iteration accounting (C5) -/

/-- Every path through one loop iteration appends exactly one log entry and
counts one iteration, so any outcome's reported `total_iterations` stays
within the budget: the invariant is `logs.length = iters` and
`iters + fuel ≤ max_iterations`. -/
theorem repair_loop_total_le (env : RepairEnv) (fp : String) (mi : Nat)
    (oe : Bool) (ic : String) :
    ∀ (fuel : Nat) (cur : String) (logs : List IterLog) (iters : Nat)
      (trace : List String),
      logs.length = iters → iters + fuel ≤ mi →
      (repair_loop env fp mi oe ic fuel cur logs iters trace).1.total_iterations ≤ mi := by
  intro fuel
  induction fuel with
  | zero =>
    intro cur logs iters trace h1 h2
    simp only [repair_loop]
    omega
  | succ fuel ih =>
    intro cur logs iters trace h1 h2
    simp only [repair_loop]
    split
    · -- exit 0: a semantic fix retries, else the logical step decides
      split
      · -- semantic fix applied: recurse
        exact ih _ _ _ _ (by simp [h1]) (by omega)
      · split
        · -- logical patch applied: recurse
          exact ih _ _ _ _ (by simp [h1]) (by omega)
        · -- success result
          simp only [create_success_result]
          omega
    · -- non-zero exit
      split
      · -- unparseable: failure result
        simp only [create_failure_result, List.length_append, List.length_cons,
          List.length_nil, h1]
        omega
      · split
        · -- no patches: failure result
          simp only [create_failure_result, List.length_append, List.length_cons,
            List.length_nil, h1]
          omega
        · split
          · -- selection returned none: failure result
            simp only [create_failure_result, List.length_append, List.length_cons,
              List.length_nil, h1]
            omega
          · split
            · -- apply failed: failure result
              simp only [create_failure_result, List.length_append, List.length_cons,
                List.length_nil, h1]
              omega
            · -- patch applied: recurse
              exact ih _ _ _ _ (by simp [h1]) (by omega)

/-! ## Claim theorems: the controller's budget (C5) and the sandbox
contract (C10) -/

/-- C5, counterexample: with a budget of 0 and a missing target file the
run returns the Failed status, not the exhausted one — the claim's
"budget 0 ⇒ exhausted status" does not hold before the loop is reached. -/
theorem C5_cex_budget_zero_missing_file_failed :
    (autonomous_repair env_C5 "nofile.py" 0 false).1.final_status = "failed" ∧
    (autonomous_repair env_C5 "nofile.py" 0 false).1.final_status ≠
      "max_iterations_reached" ∧
    (autonomous_repair env_C5 "nofile.py" 0 false).1.total_iterations = 0 := by
  refine ⟨by decide, by decide, by decide⟩

/-- C5 (amended): for every budget `max_iterations ≥ 0` the reported
`total_iterations` never exceeds the budget; with a budget of 0 nothing is
ever handed to the sandbox (the execution trace is empty), and the run
returns immediately with the exhausted status provided the target file
exists and is readable (with a read failure it returns the failed status
instead, still at zero iterations and zero executions). -/
theorem C5_iteration_bound (env : RepairEnv) (fp : String) (mi : Nat)
    (oe : Bool) :
    (autonomous_repair env fp mi oe).1.total_iterations ≤ mi ∧
    (mi = 0 →
      (autonomous_repair env fp mi oe).2 = [] ∧
      (env.file_exists = true → ∀ ic, env.read_initial = .ok ic →
        (autonomous_repair env fp mi oe).1.final_status =
          "max_iterations_reached")) := by
  constructor
  · unfold autonomous_repair
    rcases hfe : env.file_exists with _ | _
    · simp [create_failure_result]
    · simp only [Bool.not_true, Bool.false_eq_true, if_false]
      rcases hri : env.read_initial with e | icode
      · simp [create_failure_result]
      · exact repair_loop_total_le env fp mi oe icode mi icode [] 0 [] rfl (by omega)
  · intro hmi
    subst hmi
    unfold autonomous_repair
    rcases hfe : env.file_exists with _ | _
    · refine ⟨by simp, ?_⟩
      intro hfe'
      cases hfe'
    · simp only [Bool.not_true, Bool.false_eq_true, if_false]
      rcases hri : env.read_initial with e | icode
      · refine ⟨by simp, ?_⟩
        intro _ ic hic
        cases hic
      · refine ⟨rfl, ?_⟩
        intro _ ic hic
        rfl

/-- C5, witness: the amended theorem at a concrete readable environment and
budget 0: zero iterations, empty execution trace, exhausted status. -/
theorem C5_witness :
    (autonomous_repair env_C6 "user.py" 0 false).1.total_iterations ≤ 0 ∧
    (autonomous_repair env_C6 "user.py" 0 false).2 = [] ∧
    (autonomous_repair env_C6 "user.py" 0 false).1.final_status =
      "max_iterations_reached" := by
  have h := C5_iteration_bound env_C6 "user.py" 0 false
  exact ⟨h.1, (h.2 rfl).1, (h.2 rfl).2 rfl "x = 1" rfl⟩

/-- C10: `run_in_sandbox` is total over its public interface — it always
returns the five-field result record (the `SandboxResult` type is exactly
the keys `language`, `stdout`, `stderr`, `returncode`, `executed_command`),
and never lets an exception out of the dispatch: a missing file and an
unsupported extension yield `returncode 1` with an explanatory stderr and
an empty command; a `TimeoutExpired` escaping the dispatch yields
`returncode 124`; any other exception yields `returncode 1`; a completed
helper's record is returned as is. -/
theorem C10_run_in_sandbox_contract :
    (∀ (env : SandboxEnv) (path : String) (t : Nat),
      env.pathExists path = false →
      run_in_sandbox env path t =
        { language := "unknown", stdout := "",
          stderr := "Error: File '" ++ path ++ "' not found",
          returncode := 1, executed_command := [] }) ∧
    (∀ (env : SandboxEnv) (path : String) (t : Nat),
      env.pathExists path = true →
      detect_language_from_extension path = "unknown" →
      run_in_sandbox env path t =
        { language := "unknown", stdout := "",
          stderr := "Error: Unsupported file extension '" ++ pathSuffix path ++ "'",
          returncode := 1, executed_command := [] }) ∧
    (∀ (env : SandboxEnv) (path : String) (t : Nat),
      env.pathExists path = true →
      detect_language_from_extension path ≠ "unknown" →
      dispatchLanguage env (detect_language_from_extension path) path =
        .error .timeoutExpired →
      run_in_sandbox env path t =
        { language := detect_language_from_extension path, stdout := "",
          stderr := "Error: Execution exceeded " ++ toString t ++ " second timeout",
          returncode := 124, executed_command := [] }) ∧
    (∀ (env : SandboxEnv) (path : String) (t : Nat) (m : String),
      env.pathExists path = true →
      detect_language_from_extension path ≠ "unknown" →
      dispatchLanguage env (detect_language_from_extension path) path =
        .error (.exc m) →
      run_in_sandbox env path t =
        { language := detect_language_from_extension path, stdout := "",
          stderr := "Error: " ++ m, returncode := 1, executed_command := [] }) ∧
    (∀ (env : SandboxEnv) (path : String) (t : Nat) (r : SandboxResult),
      env.pathExists path = true →
      detect_language_from_extension path ≠ "unknown" →
      dispatchLanguage env (detect_language_from_extension path) path = .ok r →
      run_in_sandbox env path t = r) := by
  refine ⟨?_, ?_, ?_, ?_, ?_⟩
  · intro env path t h
    unfold run_in_sandbox
    rw [h]
    rfl
  · intro env path t h hu
    unfold run_in_sandbox
    rw [h]
    simp only [Bool.not_true, Bool.false_eq_true, if_false]
    rw [if_pos (by simp [hu])]
  · intro env path t h hu hd
    unfold run_in_sandbox
    rw [h]
    simp only [Bool.not_true, Bool.false_eq_true, if_false]
    rw [if_neg (by simp [hu]), hd]
  · intro env path t m h hu hd
    unfold run_in_sandbox
    rw [h]
    simp only [Bool.not_true, Bool.false_eq_true, if_false]
    rw [if_neg (by simp [hu]), hd]
  · intro env path t r h hu hd
    unfold run_in_sandbox
    rw [h]
    simp only [Bool.not_true, Bool.false_eq_true, if_false]
    rw [if_neg (by simp [hu]), hd]

/-- C10, witness: a sandbox whose subprocess always times out, on a Python
file: the result is the 124 timeout record. -/
theorem C10_witness :
    run_in_sandbox env_C10 "user.py" 3 =
      { language := "python", stdout := "",
        stderr := "Error: Execution exceeded 3 second timeout",
        returncode := 124, executed_command := [] } := by
  have h := C10_run_in_sandbox_contract.2.2.1 env_C10 "user.py" 3 rfl
    (by decide) rfl
  simpa using h

/-! ## Supporting lemmas: the AST unreachable-code pass (C8) -/

/-- Statement-list sizes add over append. -/
theorem blockSize_append : ∀ a b : List Stmt,
    blockSize (a ++ b) = blockSize a + blockSize b := by
  intro a b
  induction a with
  | nil => simp [blockSize]
  | cons s r ih =>
    show blockSize (s :: (r ++ b)) = blockSize (s :: r) + blockSize b
    simp only [blockSize]
    rw [ih]
    omega

/-- Every statement has positive size. -/
theorem stmtSize_pos : ∀ s : Stmt, 1 ≤ stmtSize s := by
  intro s
  cases s <;> simp [stmtSize] <;> omega

/-- A node's children are strictly smaller than the node. -/
theorem blockSize_children_lt : ∀ s : Stmt, blockSize s.children < stmtSize s := by
  intro s
  cases s <;> simp [Stmt.children, stmtSize, blockSize, blockSize_append] <;> omega

/-- The structural findings add over list append. -/
theorem astSiteFindingsBlock_append : ∀ a b : List Stmt,
    astSiteFindingsBlock (a ++ b) =
      astSiteFindingsBlock a ++ astSiteFindingsBlock b := by
  intro a b
  induction a with
  | nil => simp [astSiteFindingsBlock]
  | cons s r ih => simp [astSiteFindingsBlock, ih]

/-- One node's structural findings: its own body scan plus its children's. -/
theorem astSiteFindingsStmt_eq : ∀ n : Stmt,
    astSiteFindingsStmt n = perNodeScan n ++ astSiteFindingsBlock n.children := by
  intro n
  cases n <;>
    simp [astSiteFindingsStmt, perNodeScan, Stmt.children, astSiteFindingsBlock,
      astSiteFindingsBlock_append, List.append_assoc]

/-- The breadth-first walk emits, as a multiset, exactly the structural
findings: every node is visited once and scanned once. -/
theorem walk_flatMap_perm : ∀ l : List Stmt,
    ((walkBFS l).flatMap perNodeScan).Perm (astSiteFindingsBlock l) := by
  have H : ∀ k l, blockSize l ≤ k →
      ((walkBFS l).flatMap perNodeScan).Perm (astSiteFindingsBlock l) := by
    intro k
    induction k with
    | zero =>
      intro l hl
      cases l with
      | nil => simp [walkBFS, astSiteFindingsBlock]
      | cons n rest =>
        exfalso
        have h1 := stmtSize_pos n
        simp only [blockSize] at hl
        omega
    | succ k ih =>
      intro l hl
      cases l with
      | nil => simp [walkBFS, astSiteFindingsBlock]
      | cons n rest =>
        have hsize : blockSize (rest ++ n.children) ≤ k := by
          have h1 := blockSize_children_lt n
          have h2 := blockSize_append rest n.children
          simp only [blockSize] at hl
          omega
        have hrec := ih (rest ++ n.children) hsize
        have e1 : (walkBFS (n :: rest)).flatMap perNodeScan =
            perNodeScan n ++ (walkBFS (rest ++ n.children)).flatMap perNodeScan := by
          simp [walkBFS]
        have e2 : astSiteFindingsBlock (n :: rest) =
            (perNodeScan n ++ astSiteFindingsBlock n.children) ++
              astSiteFindingsBlock rest := by
          simp only [astSiteFindingsBlock]
          rw [astSiteFindingsStmt_eq]
        rw [e1, e2]
        refine (List.Perm.append_left (perNodeScan n) hrec).trans ?_
        rw [astSiteFindingsBlock_append, List.append_assoc]
        exact List.Perm.append_left _ List.perm_append_comm
  intro l
  exact H (blockSize l) l (le_refl _)

/-- A body scan's findings and the site lines agree in count at every
line (body-scan findings all carry the UnreachableCode type). -/
theorem scanBody_count (L : Nat) : ∀ b : List Stmt,
    (scanBody b).countP (fun f => f.etype == "unreachable_code" && f.line == L) =
      (scanLines b).countP (fun x => x == L) := by
  intro b
  induction b with
  | nil => rfl
  | cons s1 rest ih =>
    cases rest with
    | nil => rfl
    | cons s2 rest2 =>
      rcases htk : termKindName s1 with _ | name
      · simpa [scanBody, scanLines, htk] using ih
      · have e1 : scanBody (s1 :: s2 :: rest2) =
            { etype := "unreachable_code", line := s2.lineno,
              message := "Unreachable code after " ++ name ++ " statement",
              severity := "medium" } :: scanBody (s2 :: rest2) := by
          simp [scanBody, htk]
        have e2 : scanLines (s1 :: s2 :: rest2) =
            s2.lineno :: scanLines (s2 :: rest2) := by
          simp [scanLines, htk]
        rw [e1, e2, List.countP_cons, List.countP_cons, ih]
        simp

/-- The structural findings and the specification's dead-code sites agree
in count at every line. -/
theorem astSite_deadSites_count (L : Nat) : ∀ l : List Stmt,
    (astSiteFindingsBlock l).countP
        (fun f => f.etype == "unreachable_code" && f.line == L) =
      (deadSitesBlock l).countP (fun x => x == L) := by
  have H : ∀ k,
      (∀ s : Stmt, 2 * stmtSize s ≤ k →
        (astSiteFindingsStmt s).countP
            (fun f => f.etype == "unreachable_code" && f.line == L) =
          (deadSitesStmt s).countP (fun x => x == L)) ∧
      (∀ l : List Stmt, 2 * blockSize l + 1 ≤ k →
        (astSiteFindingsBlock l).countP
            (fun f => f.etype == "unreachable_code" && f.line == L) =
          (deadSitesBlock l).countP (fun x => x == L)) := by
    intro k
    induction k with
    | zero =>
      constructor
      · intro s hs
        have := stmtSize_pos s
        omega
      · intro l hl
        omega
    | succ k ih =>
      constructor
      · intro s hs
        cases s with
        | ifS ln b o =>
          have hb : 2 * blockSize b + 1 ≤ k := by
            simp only [stmtSize] at hs
            omega
          have ho : 2 * blockSize o + 1 ≤ k := by
            simp only [stmtSize] at hs
            omega
          simp only [astSiteFindingsStmt, deadSitesStmt, List.countP_append,
            scanBody_count L b, ih.2 b hb, ih.2 o ho]
        | forS ln b =>
          have hb : 2 * blockSize b + 1 ≤ k := by
            simp only [stmtSize] at hs
            omega
          simp only [astSiteFindingsStmt, deadSitesStmt, List.countP_append,
            scanBody_count L b, ih.2 b hb]
        | whileS ln b =>
          have hb : 2 * blockSize b + 1 ≤ k := by
            simp only [stmtSize] at hs
            omega
          simp only [astSiteFindingsStmt, deadSitesStmt, List.countP_append,
            scanBody_count L b, ih.2 b hb]
        | funcDef ln b =>
          have hb : 2 * blockSize b + 1 ≤ k := by
            simp only [stmtSize] at hs
            omega
          simp only [astSiteFindingsStmt, deadSitesStmt, List.countP_append,
            scanBody_count L b, ih.2 b hb]
        | simple ln => simp [astSiteFindingsStmt, deadSitesStmt]
        | ret ln => simp [astSiteFindingsStmt, deadSitesStmt]
        | brk ln => simp [astSiteFindingsStmt, deadSitesStmt]
        | cont ln => simp [astSiteFindingsStmt, deadSitesStmt]
      · intro l hl
        cases l with
        | nil => simp [astSiteFindingsBlock, deadSitesBlock]
        | cons n rest =>
          have hn : 2 * stmtSize n ≤ k := by
            simp only [blockSize] at hl
            omega
          have hrest : 2 * blockSize rest + 1 ≤ k := by
            have := stmtSize_pos n
            simp only [blockSize] at hl
            omega
          simp only [astSiteFindingsBlock, deadSitesBlock, List.countP_append,
            ih.1 n hn, ih.2 rest hrest]
  intro l
  exact (H (2 * blockSize l + 1)).2 l (le_refl _)

/-! ## Reachability of every node the CFG builder creates -/

/-- Depth-indexed reachability is monotone in the depth (additively). -/
theorem ReachD_add (E : List (Nat × Nat)) (k v : Nat) (h : ReachD E k v) :
    ∀ j, ReachD E (k + j) v := by
  intro j
  induction j with
  | zero => exact h
  | succ j ih => exact Or.inl ih

/-- Depth-indexed reachability is monotone in the depth. -/
theorem ReachD_mono_k (E : List (Nat × Nat)) {k j v : Nat} (h : ReachD E k v)
    (hkj : k ≤ j) : ReachD E j v := by
  have e : j = k + (j - k) := by omega
  rw [e]
  exact ReachD_add E k v h _

/-- Depth-indexed reachability is monotone in the edge list. -/
theorem ReachD_mono_E {E E' : List (Nat × Nat)} (hE : ∀ e ∈ E, e ∈ E') :
    ∀ k v, ReachD E k v → ReachD E' k v := by
  intro k
  induction k with
  | zero =>
    intro v h
    exact h
  | succ k ih =>
    intro v h
    cases h with
    | inl h => exact Or.inl (ih v h)
    | inr h =>
      obtain ⟨u, hu, he⟩ := h
      exact Or.inr ⟨u, ih u hu, hE _ he⟩

/-- Everything depth-reachable is in the iterated marking closure. -/
theorem mem_reachN_of_ReachD (E : List (Nat × Nat)) :
    ∀ k v, ReachD E k v → v ∈ reachN E k := by
  intro k
  induction k with
  | zero =>
    intro v h
    simp only [reachN]
    simp [show v = 1 from h]
  | succ k ih =>
    intro v h
    simp only [reachN, reachStep]
    cases h with
    | inl h => exact List.mem_append_left _ (ih v h)
    | inr h =>
      obtain ⟨u, hu, he⟩ := h
      by_cases hv : v ∈ reachN E k
      · exact List.mem_append_left _ hv
      · refine List.mem_append_right _ ?_
        rw [List.mem_filterMap]
        refine ⟨(u, v), he, ?_⟩
        simp [ih u hu, hv]

/-- Adding an edge never changes the node list. -/
theorem addEdge_nodes (st : BuildState) (u v : Nat) :
    (addEdge st u v).nodes = st.nodes := by
  by_cases h : (u, v) ∈ st.edges <;> simp [addEdge, h]

/-- The inserted edge is present afterwards. -/
theorem addEdge_mem_self (st : BuildState) (u v : Nat) :
    (u, v) ∈ (addEdge st u v).edges := by
  by_cases h : (u, v) ∈ st.edges <;> simp [addEdge, h]

/-- Old edges survive an edge insertion. -/
theorem addEdge_edges_sub (st : BuildState) (u v : Nat) :
    ∀ e ∈ st.edges, e ∈ (addEdge st u v).edges := by
  intro e he
  by_cases h : (u, v) ∈ st.edges <;> simp [addEdge, h, he]

/-- Retyping a node keeps the id list. -/
theorem setNType_map_nid (st : BuildState) (i : Nat) (t : String) :
    (setNType st i t).nodes.map CNode.nid = st.nodes.map CNode.nid := by
  simp only [setNType, List.map_map]
  apply List.map_congr_left
  intro a _
  by_cases h : (a.nid == i) = true <;> simp [h, Function.comp]

/-- Retyping a node keeps the node count. -/
theorem setNType_length (st : BuildState) (i : Nat) (t : String) :
    (setNType st i t).nodes.length = st.nodes.length := by
  simp [setNType]

/-- Joint invariant of the control-flow-graph builder: processing a
statement or a block only adds nodes and edges, and the returned last node
and every node of the new state is either an old node or reachable from
the predecessor within as many extra steps as nodes were added. -/
theorem cfg_build_reach : ∀ K : Nat,
    (∀ s : Stmt, 2 * stmtSize s ≤ K →
      ∀ pred st d last st1, ReachD st.edges d pred →
        processStmt s pred st = (last, st1) →
        ∃ c : Nat,
          st1.nodes.length = st.nodes.length + c ∧
          (∀ e ∈ st.edges, e ∈ st1.edges) ∧
          ReachD st1.edges (d + c) last ∧
          (∀ i ∈ st1.nodes.map CNode.nid,
            i ∈ st.nodes.map CNode.nid ∨ ReachD st1.edges (d + c) i)) ∧
    (∀ l : List Stmt, 2 * blockSize l + 1 ≤ K →
      ∀ pred st d last st1, ReachD st.edges d pred →
        processBlock l pred st = (last, st1) →
        ∃ c : Nat,
          st1.nodes.length = st.nodes.length + c ∧
          (∀ e ∈ st.edges, e ∈ st1.edges) ∧
          ReachD st1.edges (d + c) last ∧
          (∀ i ∈ st1.nodes.map CNode.nid,
            i ∈ st.nodes.map CNode.nid ∨ ReachD st1.edges (d + c) i)) := by
  intro K
  induction K with
  | zero =>
    constructor
    · intro s hs
      have := stmtSize_pos s
      omega
    · intro l hl
      omega
  | succ K ih =>
    constructor
    · intro s hs pred st d last st1 hpred h
      cases s with
      | simple ln =>
        simp only [processStmt, nextId, addNode] at h
        injection h with h1 h2
        subst h1
        subst h2
        refine ⟨1, ?_, ?_, ?_, ?_⟩
        · rw [addEdge_nodes]
          simp
        · intro e he
          exact addEdge_edges_sub _ _ _ e he
        · exact Or.inr ⟨pred, ReachD_mono_E (addEdge_edges_sub _ _ _) d pred hpred,
            addEdge_mem_self _ _ _⟩
        · intro i hi
          rw [addEdge_nodes] at hi
          simp only [List.map_append, List.map_cons, List.map_nil, List.mem_append,
            List.mem_cons, List.not_mem_nil, or_false] at hi
          rcases hi with hi | hi
          · exact Or.inl hi
          · subst hi
            exact Or.inr (Or.inr ⟨pred, ReachD_mono_E (addEdge_edges_sub _ _ _) d pred hpred,
              addEdge_mem_self _ _ _⟩)
      | brk ln =>
        simp only [processStmt, nextId, addNode] at h
        injection h with h1 h2
        subst h1
        subst h2
        refine ⟨1, ?_, ?_, ?_, ?_⟩
        · rw [addEdge_nodes]
          simp
        · intro e he
          exact addEdge_edges_sub _ _ _ e he
        · exact Or.inr ⟨pred, ReachD_mono_E (addEdge_edges_sub _ _ _) d pred hpred,
            addEdge_mem_self _ _ _⟩
        · intro i hi
          rw [addEdge_nodes] at hi
          simp only [List.map_append, List.map_cons, List.map_nil, List.mem_append,
            List.mem_cons, List.not_mem_nil, or_false] at hi
          rcases hi with hi | hi
          · exact Or.inl hi
          · subst hi
            exact Or.inr (Or.inr ⟨pred, ReachD_mono_E (addEdge_edges_sub _ _ _) d pred hpred,
              addEdge_mem_self _ _ _⟩)
      | cont ln =>
        simp only [processStmt, nextId, addNode] at h
        injection h with h1 h2
        subst h1
        subst h2
        refine ⟨1, ?_, ?_, ?_, ?_⟩
        · rw [addEdge_nodes]
          simp
        · intro e he
          exact addEdge_edges_sub _ _ _ e he
        · exact Or.inr ⟨pred, ReachD_mono_E (addEdge_edges_sub _ _ _) d pred hpred,
            addEdge_mem_self _ _ _⟩
        · intro i hi
          rw [addEdge_nodes] at hi
          simp only [List.map_append, List.map_cons, List.map_nil, List.mem_append,
            List.mem_cons, List.not_mem_nil, or_false] at hi
          rcases hi with hi | hi
          · exact Or.inl hi
          · subst hi
            exact Or.inr (Or.inr ⟨pred, ReachD_mono_E (addEdge_edges_sub _ _ _) d pred hpred,
              addEdge_mem_self _ _ _⟩)
      | funcDef ln body =>
        simp only [processStmt, nextId, addNode] at h
        injection h with h1 h2
        subst h1
        subst h2
        refine ⟨1, ?_, ?_, ?_, ?_⟩
        · rw [addEdge_nodes]
          simp
        · intro e he
          exact addEdge_edges_sub _ _ _ e he
        · exact Or.inr ⟨pred, ReachD_mono_E (addEdge_edges_sub _ _ _) d pred hpred,
            addEdge_mem_self _ _ _⟩
        · intro i hi
          rw [addEdge_nodes] at hi
          simp only [List.map_append, List.map_cons, List.map_nil, List.mem_append,
            List.mem_cons, List.not_mem_nil, or_false] at hi
          rcases hi with hi | hi
          · exact Or.inl hi
          · subst hi
            exact Or.inr (Or.inr ⟨pred, ReachD_mono_E (addEdge_edges_sub _ _ _) d pred hpred,
              addEdge_mem_self _ _ _⟩)
      | ret ln =>
        simp only [processStmt, nextId, addNode] at h
        injection h with h1 h2
        subst h1
        subst h2
        refine ⟨1, ?_, ?_, ?_, ?_⟩
        · rw [addEdge_nodes, setNType_length, addEdge_nodes]
          simp
        · intro e he
          exact addEdge_edges_sub _ _ _ e (addEdge_edges_sub _ _ _ e he)
        · exact ReachD_mono_E (addEdge_edges_sub _ _ _) _ _
            (Or.inr ⟨pred, ReachD_mono_E (addEdge_edges_sub _ _ _) d pred hpred,
              addEdge_mem_self _ _ _⟩)
        · intro i hi
          rw [addEdge_nodes, setNType_map_nid, addEdge_nodes] at hi
          simp only [List.map_append, List.map_cons, List.map_nil, List.mem_append,
            List.mem_cons, List.not_mem_nil, or_false] at hi
          rcases hi with hi | hi
          · exact Or.inl hi
          · subst hi
            exact Or.inr (ReachD_mono_E (addEdge_edges_sub _ _ _) _ _
              (Or.inr ⟨pred, ReachD_mono_E (addEdge_edges_sub _ _ _) d pred hpred,
                addEdge_mem_self _ _ _⟩))
      | ifS ln body orl =>
        simp only [processStmt, nextId, addNode] at h
        have hfb : 2 * blockSize body + 1 ≤ K := by
          simp only [stmtSize] at hs
          omega
        have hfo : 2 * blockSize orl + 1 ≤ K := by
          simp only [stmtSize] at hs
          omega
        set stB := addEdge
            { counter := st.counter + 1,
              nodes := st.nodes ++
                [{ nid := st.counter + 1, ntype := "statement",
                   ast_node := some (Stmt.ifS ln body orl) }],
              edges := st.edges } pred (st.counter + 1) with hB
        set stX : BuildState :=
            { counter := stB.counter + 1 + 1 + 1,
              nodes := stB.nodes ++
                [{ nid := stB.counter + 1 + 1 + 1, ntype := "merge", ast_node := none }],
              edges := stB.edges } with hX
        set PB := processBlock body (st.counter + 1) stX with hPB
        set stY := addEdge PB.2 PB.1 (stB.counter + 1 + 1 + 1) with hY
        set PO := processBlock orl (st.counter + 1) stY with hPO
        injection h with h1 h2
        subst h1
        subst h2
        have hsubSt : ∀ e ∈ st.edges, e ∈ stB.edges := by
          intro e he
          rw [hB]
          exact addEdge_edges_sub _ _ _ e he
        have hstmtE : ReachD stB.edges (d + 1) (st.counter + 1) := by
          rw [hB]
          exact Or.inr ⟨pred, ReachD_mono_E (addEdge_edges_sub _ _ _) d pred hpred,
            addEdge_mem_self _ _ _⟩
        obtain ⟨cb, hlenb, hsubb, hlb, hnb⟩ :=
          ih.2 body hfb (st.counter + 1) stX (d + 1) PB.1 PB.2 (by exact hstmtE) hPB.symm
        have hsubXY : ∀ e ∈ PB.2.edges, e ∈ stY.edges := by
          intro e he
          rw [hY]
          exact addEdge_edges_sub _ _ _ e he
        obtain ⟨co, hleno, hsubo, hlo, hno⟩ :=
          ih.2 orl hfo (st.counter + 1) stY (d + 1) PO.1 PO.2
            (by exact ReachD_mono_E (fun e he => hsubXY e (hsubb e he)) _ _ hstmtE) hPO.symm
        have hchainF : ∀ e ∈ PB.2.edges,
            e ∈ (addEdge PO.2 PO.1 (stB.counter + 1 + 1 + 1)).edges := fun e he =>
          addEdge_edges_sub _ _ _ e (hsubo e (hsubXY e he))
        have hmemM : (PB.1, stB.counter + 1 + 1 + 1) ∈ stY.edges := by
          rw [hY]
          exact addEdge_mem_self _ _ _
        have hreachM : ReachD (addEdge PO.2 PO.1 (stB.counter + 1 + 1 + 1)).edges
            (d + 1 + cb + 1) (stB.counter + 1 + 1 + 1) :=
          Or.inr ⟨PB.1, ReachD_mono_E hchainF _ _ hlb,
            addEdge_edges_sub _ _ _ _ (hsubo _ hmemM)⟩
        have hreachS : ReachD (addEdge PO.2 PO.1 (stB.counter + 1 + 1 + 1)).edges
            (d + 1) (st.counter + 1) :=
          ReachD_mono_E (fun e he => hchainF e (hsubb e he)) _ _ hstmtE
        have hYnodes : stY.nodes = PB.2.nodes := by
          rw [hY]
          exact addEdge_nodes _ _ _
        have hXnodes : stX.nodes = stB.nodes ++
            [⟨stB.counter + 1 + 1 + 1, "merge", none⟩] := by
          rw [hX]
        have hBnodes : stB.nodes = st.nodes ++
            [⟨st.counter + 1, "statement", some (Stmt.ifS ln body orl)⟩] := by
          rw [hB]
          exact addEdge_nodes _ _ _
        refine ⟨cb + co + 2, ?_, ?_, ?_, ?_⟩
        · rw [hXnodes, hBnodes] at hlenb
          rw [addEdge_nodes, hleno, hYnodes, hlenb]
          simp only [List.length_append, List.length_cons, List.length_nil]
          omega
        · intro e he
          exact hchainF e (hsubb e (hsubSt e he))
        · exact ReachD_mono_k _ hreachM (by omega)
        · intro i hi
          rw [addEdge_nodes] at hi
          rcases hno i hi with hi2 | hr
          · rw [hYnodes] at hi2
            rcases hnb i hi2 with hi3 | hr2
            · rw [hXnodes, hBnodes] at hi3
              simp only [List.map_append, List.map_cons, List.map_nil, List.mem_append,
                List.mem_cons, List.not_mem_nil, or_false] at hi3
              rcases hi3 with (hi4 | hi4) | hi4
              · exact Or.inl hi4
              · subst hi4
                exact Or.inr (ReachD_mono_k _ hreachS (by omega))
              · subst hi4
                exact Or.inr (ReachD_mono_k _ hreachM (by omega))
            · exact Or.inr (ReachD_mono_k _ (ReachD_mono_E hchainF _ _ hr2) (by omega))
          · exact Or.inr (ReachD_mono_k _
              (ReachD_mono_E (addEdge_edges_sub _ _ _) _ _ hr) (by omega))
      | forS ln body =>
        simp only [processStmt, nextId, addNode] at h
        have hfb : 2 * blockSize body + 1 ≤ K := by
          simp only [stmtSize] at hs
          omega
        set stB := addEdge
            { counter := st.counter + 1,
              nodes := st.nodes ++
                [{ nid := st.counter + 1, ntype := "statement",
                   ast_node := some (Stmt.forS ln body) }],
              edges := st.edges } pred (st.counter + 1) with hB
        set PB := processBlock body (st.counter + 1) stB with hPB
        set stD := addEdge PB.2 PB.1 (st.counter + 1) with hD
        set stE : BuildState :=
            { counter := stD.counter + 1,
              nodes := stD.nodes ++
                [{ nid := stD.counter + 1, ntype := "loop_exit", ast_node := none }],
              edges := stD.edges } with hE
        injection h with h1 h2
        subst h1
        subst h2
        have hsubSt : ∀ e ∈ st.edges, e ∈ stB.edges := by
          intro e he
          rw [hB]
          exact addEdge_edges_sub _ _ _ e he
        have hstmtE : ReachD stB.edges (d + 1) (st.counter + 1) := by
          rw [hB]
          exact Or.inr ⟨pred, ReachD_mono_E (addEdge_edges_sub _ _ _) d pred hpred,
            addEdge_mem_self _ _ _⟩
        obtain ⟨cb, hlenb, hsubb, hlb, hnb⟩ :=
          ih.2 body hfb (st.counter + 1) stB (d + 1) PB.1 PB.2 (by exact hstmtE) hPB.symm
        have hsubPD : ∀ e ∈ PB.2.edges, e ∈ stD.edges := by
          intro e he
          rw [hD]
          exact addEdge_edges_sub _ _ _ e he
        have hchainF : ∀ e ∈ PB.2.edges,
            e ∈ (addEdge stE (st.counter + 1) (stD.counter + 1)).edges := fun e he =>
          addEdge_edges_sub _ _ _ e (hsubPD e he)
        have hreachS : ReachD (addEdge stE (st.counter + 1) (stD.counter + 1)).edges
            (d + 1) (st.counter + 1) :=
          ReachD_mono_E (fun e he => hchainF e (hsubb e he)) _ _ hstmtE
        have hreachLE : ReachD (addEdge stE (st.counter + 1) (stD.counter + 1)).edges
            (d + 1 + 1) (stD.counter + 1) :=
          Or.inr ⟨st.counter + 1, hreachS, addEdge_mem_self _ _ _⟩
        have hEnodes : stE.nodes = stD.nodes ++ [⟨stD.counter + 1, "loop_exit", none⟩] := by
          rw [hE]
        have hDnodes : stD.nodes = PB.2.nodes := by
          rw [hD]
          exact addEdge_nodes _ _ _
        have hBnodes : stB.nodes = st.nodes ++
            [⟨st.counter + 1, "statement", some (Stmt.forS ln body)⟩] := by
          rw [hB]
          exact addEdge_nodes _ _ _
        refine ⟨cb + 2, ?_, ?_, ?_, ?_⟩
        · rw [hBnodes] at hlenb
          simp only [List.length_append, List.length_cons, List.length_nil] at hlenb
          rw [addEdge_nodes, hEnodes, hDnodes]
          simp only [List.length_append, List.length_cons, List.length_nil]
          omega
        · intro e he
          exact hchainF e (hsubb e (hsubSt e he))
        · exact ReachD_mono_k _ hreachLE (by omega)
        · intro i hi
          rw [addEdge_nodes, hEnodes, hDnodes] at hi
          simp only [List.map_append, List.map_cons, List.map_nil, List.mem_append,
            List.mem_cons, List.not_mem_nil, or_false] at hi
          rcases hi with hi | hi4
          · rcases hnb i hi with hi2 | hr
            · rw [hBnodes] at hi2
              simp only [List.map_append, List.map_cons, List.map_nil, List.mem_append,
                List.mem_cons, List.not_mem_nil, or_false] at hi2
              rcases hi2 with hi3 | hi3
              · exact Or.inl hi3
              · subst hi3
                exact Or.inr (ReachD_mono_k _ hreachS (by omega))
            · exact Or.inr (ReachD_mono_k _ (ReachD_mono_E hchainF _ _ hr) (by omega))
          · subst hi4
            exact Or.inr (ReachD_mono_k _ hreachLE (by omega))
      | whileS ln body =>
        simp only [processStmt, nextId, addNode] at h
        have hfb : 2 * blockSize body + 1 ≤ K := by
          simp only [stmtSize] at hs
          omega
        set stB := addEdge
            { counter := st.counter + 1,
              nodes := st.nodes ++
                [{ nid := st.counter + 1, ntype := "statement",
                   ast_node := some (Stmt.whileS ln body) }],
              edges := st.edges } pred (st.counter + 1) with hB
        set PB := processBlock body (st.counter + 1) stB with hPB
        set stD := addEdge PB.2 PB.1 (st.counter + 1) with hD
        set stE : BuildState :=
            { counter := stD.counter + 1,
              nodes := stD.nodes ++
                [{ nid := stD.counter + 1, ntype := "loop_exit", ast_node := none }],
              edges := stD.edges } with hE
        injection h with h1 h2
        subst h1
        subst h2
        have hsubSt : ∀ e ∈ st.edges, e ∈ stB.edges := by
          intro e he
          rw [hB]
          exact addEdge_edges_sub _ _ _ e he
        have hstmtE : ReachD stB.edges (d + 1) (st.counter + 1) := by
          rw [hB]
          exact Or.inr ⟨pred, ReachD_mono_E (addEdge_edges_sub _ _ _) d pred hpred,
            addEdge_mem_self _ _ _⟩
        obtain ⟨cb, hlenb, hsubb, hlb, hnb⟩ :=
          ih.2 body hfb (st.counter + 1) stB (d + 1) PB.1 PB.2 (by exact hstmtE) hPB.symm
        have hsubPD : ∀ e ∈ PB.2.edges, e ∈ stD.edges := by
          intro e he
          rw [hD]
          exact addEdge_edges_sub _ _ _ e he
        have hchainF : ∀ e ∈ PB.2.edges,
            e ∈ (addEdge stE (st.counter + 1) (stD.counter + 1)).edges := fun e he =>
          addEdge_edges_sub _ _ _ e (hsubPD e he)
        have hreachS : ReachD (addEdge stE (st.counter + 1) (stD.counter + 1)).edges
            (d + 1) (st.counter + 1) :=
          ReachD_mono_E (fun e he => hchainF e (hsubb e he)) _ _ hstmtE
        have hreachLE : ReachD (addEdge stE (st.counter + 1) (stD.counter + 1)).edges
            (d + 1 + 1) (stD.counter + 1) :=
          Or.inr ⟨st.counter + 1, hreachS, addEdge_mem_self _ _ _⟩
        have hEnodes : stE.nodes = stD.nodes ++ [⟨stD.counter + 1, "loop_exit", none⟩] := by
          rw [hE]
        have hDnodes : stD.nodes = PB.2.nodes := by
          rw [hD]
          exact addEdge_nodes _ _ _
        have hBnodes : stB.nodes = st.nodes ++
            [⟨st.counter + 1, "statement", some (Stmt.whileS ln body)⟩] := by
          rw [hB]
          exact addEdge_nodes _ _ _
        refine ⟨cb + 2, ?_, ?_, ?_, ?_⟩
        · rw [hBnodes] at hlenb
          simp only [List.length_append, List.length_cons, List.length_nil] at hlenb
          rw [addEdge_nodes, hEnodes, hDnodes]
          simp only [List.length_append, List.length_cons, List.length_nil]
          omega
        · intro e he
          exact hchainF e (hsubb e (hsubSt e he))
        · exact ReachD_mono_k _ hreachLE (by omega)
        · intro i hi
          rw [addEdge_nodes, hEnodes, hDnodes] at hi
          simp only [List.map_append, List.map_cons, List.map_nil, List.mem_append,
            List.mem_cons, List.not_mem_nil, or_false] at hi
          rcases hi with hi | hi4
          · rcases hnb i hi with hi2 | hr
            · rw [hBnodes] at hi2
              simp only [List.map_append, List.map_cons, List.map_nil, List.mem_append,
                List.mem_cons, List.not_mem_nil, or_false] at hi2
              rcases hi2 with hi3 | hi3
              · exact Or.inl hi3
              · subst hi3
                exact Or.inr (ReachD_mono_k _ hreachS (by omega))
            · exact Or.inr (ReachD_mono_k _ (ReachD_mono_E hchainF _ _ hr) (by omega))
          · subst hi4
            exact Or.inr (ReachD_mono_k _ hreachLE (by omega))
    · intro l hl pred st d last st1 hpred h
      cases l with
      | nil =>
        simp only [processBlock] at h
        injection h with h1 h2
        subst h1
        subst h2
        exact ⟨0, by omega, fun e he => he, by simpa using hpred, fun i hi => Or.inl hi⟩
      | cons s rest =>
        simp only [processBlock] at h
        set PS := processStmt s pred st with hPS
        have hfs : 2 * stmtSize s ≤ K := by
          have := stmtSize_pos s
          simp only [blockSize] at hl
          omega
        have hfr : 2 * blockSize rest + 1 ≤ K := by
          have := stmtSize_pos s
          simp only [blockSize] at hl
          omega
        obtain ⟨c1, hlen1, hsub1, hl1, hn1⟩ :=
          ih.1 s hfs pred st d PS.1 PS.2 hpred hPS.symm
        obtain ⟨c2, hlen2, hsub2, hl2, hn2⟩ :=
          ih.2 rest hfr PS.1 PS.2 (d + c1) last st1 hl1 h
        refine ⟨c1 + c2, by omega, fun e he => hsub2 e (hsub1 e he), ?_, ?_⟩
        · have e : d + (c1 + c2) = d + c1 + c2 := by omega
          rw [e]
          exact hl2
        · intro i hi
          rcases hn2 i hi with hi2 | hr
          · rcases hn1 i hi2 with hi3 | hr1
            · exact Or.inl hi3
            · exact Or.inr (ReachD_mono_k _ (ReachD_mono_E hsub2 _ _ hr1) (by omega))
          · exact Or.inr (ReachD_mono_k _ hr (by omega))

/-- Destructured form of buildCFG: the processed module body and the final
edge into the exit node. -/
theorem buildCFG_cases (m : List Stmt) :
    ∃ last stP,
      processBlock m 1 ⟨2, [⟨1, "entry", none⟩, ⟨2, "exit", none⟩], []⟩ = (last, stP) ∧
      buildCFG m = addEdge stP last 2 := by
  refine ⟨(processBlock m 1 ⟨2, [⟨1, "entry", none⟩, ⟨2, "exit", none⟩], []⟩).1,
    (processBlock m 1 ⟨2, [⟨1, "entry", none⟩, ⟨2, "exit", none⟩], []⟩).2, rfl, ?_⟩
  simp only [buildCFG, nextId, addNode, List.nil_append, List.cons_append]

/-- Every node of the built control-flow graph gets marked reachable. -/
theorem buildCFG_all_marked (m : List Stmt) :
    ∀ n ∈ (buildCFG m).nodes, n.nid ∈ markedSet (buildCFG m) := by
  obtain ⟨last, stP, hpb, hcfg⟩ := buildCFG_cases m
  obtain ⟨c, hlen, hsub, hlast, hnodes⟩ :=
    (cfg_build_reach (2 * blockSize m + 1)).2 m (le_refl _) 1
      ⟨2, [⟨1, "entry", none⟩, ⟨2, "exit", none⟩], []⟩ 0 last stP rfl hpb
  simp only [Nat.zero_add] at hlast hnodes
  simp only [List.length_cons, List.length_nil] at hlen
  rw [hcfg]
  intro n hn
  rw [addEdge_nodes] at hn
  have hn2 : n.nid ∈ stP.nodes.map CNode.nid := List.mem_map_of_mem _ hn
  have hreach : ReachD (addEdge stP last 2).edges stP.nodes.length n.nid := by
    rcases hnodes n.nid hn2 with hold | hr
    · have h12 : n.nid = 1 ∨ n.nid = 2 := by simpa using hold
      rcases h12 with h1 | h1
      · rw [h1]
        exact ReachD_mono_k _ (show ReachD (addEdge stP last 2).edges 0 1 from rfl)
          (Nat.zero_le _)
      · rw [h1]
        have h2r : ReachD (addEdge stP last 2).edges (c + 1) 2 :=
          Or.inr ⟨last, ReachD_mono_E (addEdge_edges_sub _ _ _) c last hlast,
            addEdge_mem_self _ _ _⟩
        exact ReachD_mono_k _ h2r (by omega)
    · exact ReachD_mono_k _ (ReachD_mono_E (addEdge_edges_sub _ _ _) c n.nid hr) (by omega)
  show n.nid ∈ markedSet (addEdge stP last 2)
  unfold markedSet
  rw [addEdge_nodes]
  exact mem_reachN_of_ReachD _ _ _ hreach

/-- The builder leaves nothing unreachable for find_unreachable to report. -/
theorem find_unreachable_nil (m : List Stmt) : find_unreachable (buildCFG m) = [] := by
  unfold find_unreachable
  rw [List.filter_eq_nil_iff]
  intro n hn
  simp [buildCFG_all_marked m n hn]

/-- The CFG-based reporting of analyze_logic is empty on every module. -/
theorem cfg_unreachable_findings_nil (m : List Stmt) :
    cfg_unreachable_findings m = [] := by
  unfold cfg_unreachable_findings
  rw [find_unreachable_nil]
  rfl

/-- C8: corrected.  The analyzer does not report exactly one UnreachableCode
finding for every block in which a return is directly followed by further
statements: only the `body` fields of FunctionDef/For/While/If are scanned,
so dead code in an `else` block draws no finding at all, and the CFG pass
contributes nothing since its builder chains every statement node from its
predecessor (even across a return) and hence marks every node reachable.
What does hold: the CFG pass reports nothing on any module, and at every
line the count of UnreachableCode findings equals the count of body-field
dead-code sites at that line — in particular, exactly one finding at the
statement after the terminator for each covered site, and the two passes
never double-report. -/
theorem C8_unreachable_counts (m : List Stmt) (L : Nat) :
    cfg_unreachable_findings m = [] ∧
    (unreachable_findings m).countP
        (fun f => f.etype == "unreachable_code" && f.line == L) =
      (deadSitesBlock m).countP (fun x => x == L) := by
  refine ⟨cfg_unreachable_findings_nil m, ?_⟩
  unfold unreachable_findings
  rw [cfg_unreachable_findings_nil, List.append_nil]
  have heq : analyze_unreachable_code m = (walkBFS m).flatMap perNodeScan := rfl
  rw [heq, List.Perm.countP_eq _ (walk_flatMap_perm m)]
  exact astSite_deadSites_count L m

/-- C8 counterexample: in the module `def f(): if c: x = 1 else: return 1;
y = 2` the return at line 5 is directly followed by the line-6 statement of
the same (else) block, yet neither the AST pass nor the CFG pass emits any
UnreachableCode finding. -/
theorem C8_cex_else_block_missed : unreachable_findings m_C8 = [] := by
  unfold unreachable_findings
  rw [cfg_unreachable_findings_nil, List.append_nil]
  have hp : (analyze_unreachable_code m_C8).Perm (astSiteFindingsBlock m_C8) :=
    walk_flatMap_perm m_C8
  have he : astSiteFindingsBlock m_C8 = [] := by
    simp [m_C8, astSiteFindingsBlock, astSiteFindingsStmt, scanBody, termKindName]
  rw [he] at hp
  exact hp.eq_nil

end FixGoblin
